import Mathlib

/-!
# PCD8544 (Nokia 5110) driver `mcd8544.c`: embedding and verification

The driver keeps four bytes of state (`fn`, `vop`, `bias`, `temp`) next to its
pin handles, and talks to the controller through three primitives: a pin
write, a blocking microsecond delay and an SPI transfer.  Every driver
function is embedded as a pure function from the object to an `Outcome`: the
object afterwards, the list of primitive events it performed, and the
exception it raised, if any.  `mp_raise_ValueError` does not return, so what
was stored in the object before the raise stays stored.

C `int` expressions are evaluated on 32-bit two's-complement bit patterns held
in `Nat`; a store into a `uint8_t` keeps the low eight bits.

Two things the driver takes from the MicroPython tree are parameters of the
model: the font table `font_petme128_8x8` (`font`), and what `mp_obj_get_int`
does with the null handle that `fill` passes to `position` (`null_int`).  The
controller is hardware; where a statement is about its memory, the model of
the display RAM is the one the specification describes.
-/

namespace MCD8544

/-! ## Machine integers -/

/-- An unsigned byte, the C type `uint8_t`. -/
abbrev uint8_t := Fin 256

/-- Conversion of an `int` bit pattern to `uint8_t`: the low eight bits. -/
def to_uint8 (n : Nat) : uint8_t := ⟨n % 256, Nat.mod_lt n (by decide)⟩

/-- Bit pattern of a signed integer in a 32-bit two's-complement word. -/
def int_bits (x : Int) : Nat := (x % 4294967296).toNat

/-- Conversion of an `mp_int_t` argument to a C `int` parameter: the low 32
bits, read as two's complement.  Where the two types have the same width the
conversion changes nothing; on a 64-bit build it wraps. -/
def to_int (x : Int) : Int := (x + 2147483648) % 4294967296 - 2147483648

/-- The C operator `~` on an `int` whose bit pattern is `c`. -/
def int_not (c : Nat) : Nat := 4294967295 - c % 4294967296

/-! ## Constants of `mcd8544.h` -/

/-- Modelled from the spec: the header `mcd8544.h` is not among the sources;
function set is the command pattern `0b00100xxx`. -/
def MCD8544_FUNCTION_SET : Nat := 0x20
/-- Modelled from the spec: missing header `mcd8544.h`; power-down flag of the
function register (bit 2). -/
def MCD8544_POWER_DOWN : Nat := 0x04
/-- Modelled from the spec: missing header `mcd8544.h`; vertical addressing
flag, the bit `mcd8544_MCD8544_print` reads as `(fn >> 1) & 1`. -/
def MCD8544_ADDRESSING_VERT : Nat := 0x02
/-- Modelled from the spec: missing header `mcd8544.h`; extended instruction
set flag (bit 0). -/
def MCD8544_EXTENDED_INSTR : Nat := 0x01
/-- Modelled from the spec: missing header `mcd8544.h`; display mode blank. -/
def MCD8544_DISPLAY_BLANK : Nat := 0x08
/-- Modelled from the spec: missing header `mcd8544.h`; display mode all
segments on. -/
def MCD8544_DISPLAY_ALL : Nat := 0x09
/-- Modelled from the spec: missing header `mcd8544.h`; display mode normal. -/
def MCD8544_DISPLAY_NORMAL : Nat := 0x0c
/-- Modelled from the spec: missing header `mcd8544.h`; display mode inverse. -/
def MCD8544_DISPLAY_INVERSE : Nat := 0x0d
/-- Modelled from the spec: missing header `mcd8544.h`; column address opcode,
seven-bit field. -/
def MCD8544_COL_ADDR : Nat := 0x80
/-- Modelled from the spec: missing header `mcd8544.h`; bank address opcode,
six-bit field. -/
def MCD8544_BANK_ADDR : Nat := 0x40
/-- Modelled from the spec: missing header `mcd8544.h`; temperature
coefficient opcode, annotated `0x04 | 0..3` in `init_internal`. -/
def MCD8544_TEMP_COEFF : Nat := 0x04
/-- Modelled from the spec: missing header `mcd8544.h`; bias opcode, annotated
`0x10 | 0..7` in `init_internal`. -/
def MCD8544_BIAS : Nat := 0x10
/-- Modelled from the spec: missing header `mcd8544.h`; operating voltage
opcode, seven-bit field `0x00~0x7f`. -/
def MCD8544_VOP : Nat := 0x80
/-- Modelled from the spec: missing header `mcd8544.h`; default contrast. -/
def MCD8544_VOP_DEFAULT : Int := 0x3f
/-- Modelled from the spec: missing header `mcd8544.h`; default bias. -/
def MCD8544_BIAS_DEFAULT : Int := 0x03
/-- Modelled from the spec: missing header `mcd8544.h`; default temperature
coefficient. -/
def MCD8544_TEMP_COEFF_DEFAULT : Int := 0x02

/-! ## Transport events -/

/-- The three control lines of the handle. -/
inductive Line where
  | dc
  | cs
  | reset
  deriving DecidableEq, Repr

/-- One primitive action on the hardware abstraction layer. -/
inductive Event where
  | pin_output (line : Line)
  | pin_write (line : Line) (level : Bool)
  | delay_us (us : Nat)
  | spi_transfer (buf : List uint8_t)
  deriving DecidableEq, Repr

/-- Which range check raised the `ValueError`. -/
inductive Param where
  | vop
  | bias
  | temp
  deriving DecidableEq, Repr

/-- Ways a driver function fails to return: `ValueError` through
`mp_raise_ValueError`, and `Fault` when `mp_obj_get_int` is applied to a
handle that is no object and does not come back with a value. -/
inductive Raised where
  | ValueError (which : Param)
  | Fault
  deriving DecidableEq, Repr

/-- The driver object `mcd8544_MCD8544_obj_t`.  `cs` and `reset` record whether
the optional pin is configured; `dc` is always present. -/
structure mcd8544_MCD8544_obj_t where
  cs : Bool
  reset : Bool
  fn : uint8_t
  vop : uint8_t
  bias : uint8_t
  temp : uint8_t
  deriving DecidableEq, Repr

/-- What a driver function leaves behind: the object, the events performed in
order, and the exception raised (`none` when it returned). -/
structure Outcome where
  self : mcd8544_MCD8544_obj_t
  trace : List Event
  raised : Option Raised
  deriving DecidableEq, Repr

/-! ## Pin macros and transfer primitives -/

/-- Macro `DC_LOW()`. -/
def DC_LOW : List Event := [Event.pin_write Line.dc false]
/-- Macro `DC_HIGH()`. -/
def DC_HIGH : List Event := [Event.pin_write Line.dc true]
/-- Macro `CS_LOW()`: writes only when a chip-select pin is configured. -/
def CS_LOW (self : mcd8544_MCD8544_obj_t) : List Event :=
  if self.cs then [Event.pin_write Line.cs false] else []
/-- Macro `CS_HIGH()`. -/
def CS_HIGH (self : mcd8544_MCD8544_obj_t) : List Event :=
  if self.cs then [Event.pin_write Line.cs true] else []
/-- Macro `RESET_LOW()`: writes only when a reset pin is configured. -/
def RESET_LOW (self : mcd8544_MCD8544_obj_t) : List Event :=
  if self.reset then [Event.pin_write Line.reset false] else []
/-- Macro `RESET_HIGH()`. -/
def RESET_HIGH (self : mcd8544_MCD8544_obj_t) : List Event :=
  if self.reset then [Event.pin_write Line.reset true] else []

/-- Function `write_spi`: one transfer of the whole buffer. -/
def write_spi (buf : List uint8_t) : List Event := [Event.spi_transfer buf]

/-- Function `write_cmd`: the argument is converted to `uint8_t` at the call. -/
def write_cmd (self : mcd8544_MCD8544_obj_t) (cmd : Nat) : List Event :=
  CS_LOW self ++ DC_LOW ++ write_spi [to_uint8 cmd] ++ CS_HIGH self

/-- Function `write_data`: the transfer is skipped for an empty buffer. -/
def write_data (self : mcd8544_MCD8544_obj_t) (data : List uint8_t) : List Event :=
  CS_LOW self ++ DC_HIGH ++ (if data.length > 0 then write_spi data else []) ++ CS_HIGH self

/-! ## Driver functions -/

/-- Function `mcd8544_MCD8544_reset`: the reset pulse. -/
def mcd8544_MCD8544_reset (self : mcd8544_MCD8544_obj_t) : Outcome :=
  { self := self
    trace := RESET_HIGH self ++ [Event.delay_us 500] ++ RESET_LOW self ++ [Event.delay_us 500]
      ++ RESET_HIGH self ++ [Event.delay_us 100]
    raised := none }

/-- The addressing-mode prologue of `init_internal`. -/
def set_addressing (self : mcd8544_MCD8544_obj_t) (horizontal : Int) : mcd8544_MCD8544_obj_t :=
  if horizontal = 0 then
    { self with fn := to_uint8 (self.fn.val ||| MCD8544_ADDRESSING_VERT) }
  else if horizontal = 1 then
    { self with fn := to_uint8 (self.fn.val &&& int_not MCD8544_ADDRESSING_VERT) }
  else self

/-- The tail of `init_internal` after the range checks: reset pulse, the five
configuration commands, power on, display normal. -/
def init_sequence (self : mcd8544_MCD8544_obj_t) : Outcome :=
  let t0 := (mcd8544_MCD8544_reset self).trace
  let t1 := write_cmd self (self.fn.val ||| MCD8544_EXTENDED_INSTR)
  let t2 := write_cmd self (MCD8544_TEMP_COEFF ||| self.temp.val)
  let t3 := write_cmd self (MCD8544_BIAS ||| self.bias.val)
  let t4 := write_cmd self (MCD8544_VOP ||| self.vop.val)
  let t5 := write_cmd self (self.fn.val &&& int_not MCD8544_EXTENDED_INSTR)
  let self1 := { self with fn := to_uint8 (self.fn.val &&& int_not MCD8544_POWER_DOWN) }
  let t6 := write_cmd self1 self1.fn.val
  let t7 := write_cmd self1 MCD8544_DISPLAY_NORMAL
  { self := self1, trace := t0 ++ t1 ++ t2 ++ t3 ++ t4 ++ t5 ++ t6 ++ t7, raised := none }

/-- Function `mcd8544_MCD8544_init_internal`.  The three range checks run in
the order vop, bias, temp, each value being stored as soon as it has passed;
a raise leaves the stores made so far in place. -/
def mcd8544_MCD8544_init_internal (self : mcd8544_MCD8544_obj_t)
    (horizontal vop bias temp : Int) : Outcome :=
  let self := set_addressing self horizontal
  if vop ≠ -1 ∧ (vop < 0 ∨ vop > 127) then
    { self := self, trace := [], raised := some (Raised.ValueError Param.vop) }
  else
    let self := if vop ≠ -1 then { self with vop := to_uint8 (int_bits vop) } else self
    if bias ≠ -1 ∧ (bias < 0 ∨ bias > 7) then
      { self := self, trace := [], raised := some (Raised.ValueError Param.bias) }
    else
      let self := if bias ≠ -1 then { self with bias := to_uint8 (int_bits bias) } else self
      if temp ≠ -1 ∧ (temp < 0 ∨ temp > 3) then
        { self := self, trace := [], raised := some (Raised.ValueError Param.temp) }
      else
        let self := if temp ≠ -1 then { self with temp := to_uint8 (int_bits temp) } else self
        init_sequence self

/-- Function `mcd8544_MCD8544_init`: keyword arguments that are not given
default to `-1`.  The parsed arguments are `mp_int_t` values `u_int`; the call
of `init_internal` converts each to its `int` parameter. -/
def mcd8544_MCD8544_init (self : mcd8544_MCD8544_obj_t)
    (horizontal vop bias temp : Int) : Outcome :=
  mcd8544_MCD8544_init_internal self (to_int horizontal) (to_int vop) (to_int bias)
    (to_int temp)

/-- Function `mcd8544_MCD8544_power`. -/
def mcd8544_MCD8544_power (self : mcd8544_MCD8544_obj_t) (on_ : Bool) : Outcome :=
  let self1 :=
    if on_ then { self with fn := to_uint8 (self.fn.val &&& int_not MCD8544_POWER_DOWN) }
    else { self with fn := to_uint8 (self.fn.val ||| MCD8544_POWER_DOWN) }
  { self := self1, trace := write_cmd self1 self1.fn.val, raised := none }

/-- Function `mcd8544_MCD8544_invert`. -/
def mcd8544_MCD8544_invert (self : mcd8544_MCD8544_obj_t) (inverted : Bool) : Outcome :=
  { self := self
    trace := if inverted then write_cmd self MCD8544_DISPLAY_INVERSE
      else write_cmd self MCD8544_DISPLAY_NORMAL
    raised := none }

/-- Function `mcd8544_MCD8544_display`. -/
def mcd8544_MCD8544_display (self : mcd8544_MCD8544_obj_t) (normal : Bool) : Outcome :=
  { self := self
    trace := if normal then write_cmd self MCD8544_DISPLAY_NORMAL
      else write_cmd self MCD8544_DISPLAY_BLANK
    raised := none }

/-- Function `mcd8544_MCD8544_test`. -/
def mcd8544_MCD8544_test (self : mcd8544_MCD8544_obj_t) (testing : Bool) : Outcome :=
  { self := self
    trace := if testing then write_cmd self MCD8544_DISPLAY_ALL
      else write_cmd self MCD8544_DISPLAY_NORMAL
    raised := none }

/-- Function `mcd8544_MCD8544_position`; `x` and `y` are the values
`mp_obj_get_int` returns. -/
def mcd8544_MCD8544_position (self : mcd8544_MCD8544_obj_t) (x y : Int) : Outcome :=
  { self := self
    trace := write_cmd self (MCD8544_COL_ADDR ||| (int_bits x &&& 0x7F))
      ++ write_cmd self (MCD8544_BANK_ADDR ||| (int_bits y &&& 0x3F))
    raised := none }

/-- The chunk loop of `fill`, `n` iterations left, each one `write_data` of
the eight-byte buffer. -/
def fill_loop (self : mcd8544_MCD8544_obj_t) (buf : List uint8_t) : Nat → List Event
  | 0 => []
  | n + 1 => write_data self buf ++ fill_loop self buf n

/-- Function `mcd8544_MCD8544_fill`: the loop `for (i = 0; i < 504; i++)`
runs 504 times.  The closing call `mcd8544_MCD8544_position(self, 0, 0)` hands
the C constant `0`, the null handle `MP_OBJ_NULL`, to a function that takes
objects and applies `mp_obj_get_int` to them; the small integer 0 would be
`MP_OBJ_NEW_SMALL_INT(0)`.  `null_int` is what `mp_obj_get_int` does with the
null handle: `some v` when it returns `v`, `none` when it does not return, in
which case nothing follows the data. -/
def mcd8544_MCD8544_fill (null_int : Option Int) (self : mcd8544_MCD8544_obj_t)
    (color : Int) : Outcome :=
  let c : uint8_t := if color > 0 then 255 else 0
  let buf := List.replicate 8 c
  match null_int with
  | some v =>
    { self := self
      trace := fill_loop self buf 504 ++ (mcd8544_MCD8544_position self v v).trace
      raised := none }
  | none =>
    { self := self, trace := fill_loop self buf 504, raised := some Raised.Fault }

/-- Function `mcd8544_MCD8544_text`.  `str` holds the bytes of the C string;
the loop ends at the first zero byte.  `font` is the table
`font_petme128_8x8`, which belongs to the MicroPython tree. -/
def mcd8544_MCD8544_text_loop (self : mcd8544_MCD8544_obj_t) (font : Nat → uint8_t) :
    List uint8_t → List Event
  | [] => []
  | b :: str =>
    if b.val = 0 then []
    else
      let chr : Nat := if b.val < 32 ∨ b.val > 127 then 127 else b.val
      write_data self ((List.range 8).map fun k => font ((chr - 32) * 8 + k))
        ++ mcd8544_MCD8544_text_loop self font str

/-- Function `mcd8544_MCD8544_text`. -/
def mcd8544_MCD8544_text (self : mcd8544_MCD8544_obj_t) (font : Nat → uint8_t)
    (str : List uint8_t) : Outcome :=
  { self := self, trace := mcd8544_MCD8544_text_loop self font str, raised := none }

/-- Function `mcd8544_MCD8544_command`. -/
def mcd8544_MCD8544_command (self : mcd8544_MCD8544_obj_t) (command : Int) : Outcome :=
  { self := self, trace := write_cmd self (int_bits command), raised := none }

/-- Function `mcd8544_MCD8544_data`. -/
def mcd8544_MCD8544_data (self : mcd8544_MCD8544_obj_t) (data : List uint8_t) : Outcome :=
  { self := self, trace := write_data self data, raised := none }

/-- Function `mcd8544_MCD8544_make_new`, after argument parsing.  `alloc` is
the object as `m_new_obj` hands it over; `cs` and `reset` tell whether the
optional pins were passed; the four `u_int` arguments are converted to `int`
at the call of `init_internal`.  When `init_internal` raises, no object is
returned. -/
def mcd8544_MCD8544_make_new (alloc : mcd8544_MCD8544_obj_t) (cs reset : Bool)
    (horizontal vop bias temp : Int) : Outcome :=
  let t_dc := [Event.pin_output Line.dc, Event.pin_write Line.dc false]
  let self := if cs then { alloc with cs := true } else alloc
  let t_cs := if cs then [Event.pin_output Line.cs, Event.pin_write Line.cs true] else []
  let self := if reset then { self with reset := true } else self
  let t_reset :=
    if reset then [Event.pin_output Line.reset, Event.pin_write Line.reset true] else []
  let self := { self with fn := to_uint8 (MCD8544_FUNCTION_SET ||| MCD8544_POWER_DOWN) }
  let r := mcd8544_MCD8544_init_internal self (to_int horizontal) (to_int vop) (to_int bias)
    (to_int temp)
  { r with trace := t_dc ++ t_cs ++ t_reset ++ r.trace }

/-! ## The public operations as one step function -/

/-- A call of one entry of `mcd8544_MCD8544_locals_dict_table`. -/
inductive Op where
  | init (horizontal vop bias temp : Int)
  | reset
  | power (on_ : Bool)
  | invert (inverted : Bool)
  | display (normal : Bool)
  | test (testing : Bool)
  | position (x y : Int)
  | fill (color : Int)
  | text (str : List uint8_t)
  | command (command : Int)
  | data (data : List uint8_t)

/-- Dispatch of a method call on the object. -/
def step (font : Nat → uint8_t) (null_int : Option Int) (self : mcd8544_MCD8544_obj_t) :
    Op → Outcome
  | Op.init horizontal vop bias temp => mcd8544_MCD8544_init self horizontal vop bias temp
  | Op.reset => mcd8544_MCD8544_reset self
  | Op.power on_ => mcd8544_MCD8544_power self on_
  | Op.invert inverted => mcd8544_MCD8544_invert self inverted
  | Op.display normal => mcd8544_MCD8544_display self normal
  | Op.test testing => mcd8544_MCD8544_test self testing
  | Op.position x y => mcd8544_MCD8544_position self x y
  | Op.fill color => mcd8544_MCD8544_fill null_int self color
  | Op.text str => mcd8544_MCD8544_text self font str
  | Op.command command => mcd8544_MCD8544_command self command
  | Op.data data => mcd8544_MCD8544_data self data

/-- States the object can be in: what a completed constructor returns, and
what any method call, completed or raised, leaves behind. -/
inductive Reachable : mcd8544_MCD8544_obj_t → Prop where
  | make_new (alloc : mcd8544_MCD8544_obj_t) (cs reset : Bool) (horizontal vop bias temp : Int) :
      (mcd8544_MCD8544_make_new alloc cs reset horizontal vop bias temp).raised = none →
      Reachable (mcd8544_MCD8544_make_new alloc cs reset horizontal vop bias temp).self
  | step (font : Nat → uint8_t) (null_int : Option Int) (self : mcd8544_MCD8544_obj_t)
      (op : Op) : Reachable self → Reachable (step font null_int self op).self

/-! ## Reading a trace -/

/-- Level of the data/command line after a trace, `dc` being the level before. -/
def dc_after (dc : Bool) : List Event → Bool
  | [] => dc
  | Event.pin_write Line.dc level :: tr => dc_after level tr
  | _ :: tr => dc_after dc tr

/-- Bytes the controller receives as commands: those transferred while the
data/command line is low. -/
def command_bytes (dc : Bool) : List Event → List uint8_t
  | [] => []
  | Event.pin_write Line.dc level :: tr => command_bytes level tr
  | Event.spi_transfer buf :: tr => (if dc then [] else buf) ++ command_bytes dc tr
  | _ :: tr => command_bytes dc tr

/-- Bytes the controller receives as display data: those transferred while the
data/command line is high. -/
def data_bytes (dc : Bool) : List Event → List uint8_t
  | [] => []
  | Event.pin_write Line.dc level :: tr => data_bytes level tr
  | Event.spi_transfer buf :: tr => (if dc then buf else []) ++ data_bytes dc tr
  | _ :: tr => data_bytes dc tr

/-- Every byte handed to the transport, command or data. -/
def transport_bytes : List Event → List uint8_t
  | [] => []
  | Event.spi_transfer buf :: tr => buf ++ transport_bytes tr
  | _ :: tr => transport_bytes tr

/-- A zeroed allocation, as the MicroPython heap hands it out by default. -/
def zero_obj : mcd8544_MCD8544_obj_t :=
  { cs := false, reset := false, fn := 0, vop := 0, bias := 0, temp := 0 }

/-- The object the constructor returns for default arguments and no optional
pin: horizontal addressing, powered on, contrast 0x3f, bias 3, temperature 2. -/
def default_obj : mcd8544_MCD8544_obj_t :=
  (mcd8544_MCD8544_make_new zero_obj false false 1 MCD8544_VOP_DEFAULT MCD8544_BIAS_DEFAULT
    MCD8544_TEMP_COEFF_DEFAULT).self

/-- The bus transfers of a trace in order, each with the level the
data/command line has during it (`false`: command, `true`: data). -/
def transfers (dc : Bool) : List Event → List (Bool × List uint8_t)
  | [] => []
  | Event.pin_write Line.dc level :: tr => transfers level tr
  | Event.spi_transfer buf :: tr => (dc, buf) :: transfers dc tr
  | _ :: tr => transfers dc tr

/-- A command byte of the pattern `0b00100xxx`, a function-set command. -/
def is_function_set (c : uint8_t) : Bool := decide (c.val / 8 = 4)

/-- The last function-set command of a trace, if it has one. -/
def last_function_set (dc : Bool) (tr : List Event) : Option uint8_t :=
  ((command_bytes dc tr).filter is_function_set).getLast?

/-! ## Sequences of operations -/

/-- Successive method calls on one object: the object after the last call and
the events of all calls in order.  A call that raises leaves its object and
its events behind, and the next call starts from there. -/
def run (font : Nat → uint8_t) (null_int : Option Int) :
    mcd8544_MCD8544_obj_t → List Op → mcd8544_MCD8544_obj_t × List Event
  | self, [] => (self, [])
  | self, op :: ops =>
    ((run font null_int (step font null_int self op).self ops).1,
      (step font null_int self op).trace
        ++ (run font null_int (step font null_int self op).self ops).2)

/-- The object `make_new` passes to `init_internal`: pins recorded, `fn` set to
power-down, horizontal addressing, basic instruction set. -/
def make_new_prepared (alloc : mcd8544_MCD8544_obj_t) (cs reset : Bool) :
    mcd8544_MCD8544_obj_t :=
  { cs := if cs then true else alloc.cs
    reset := if reset then true else alloc.reset
    fn := to_uint8 (MCD8544_FUNCTION_SET ||| MCD8544_POWER_DOWN)
    vop := alloc.vop, bias := alloc.bias, temp := alloc.temp }

/-- The three values of `init` pass their checks: each is -1 or in range. -/
def init_valid (vop bias temp : Int) : Prop :=
  ¬ (vop ≠ -1 ∧ (vop < 0 ∨ vop > 127)) ∧ ¬ (bias ≠ -1 ∧ (bias < 0 ∨ bias > 7))
    ∧ ¬ (temp ≠ -1 ∧ (temp < 0 ∨ temp > 3))

instance (vop bias temp : Int) : Decidable (init_valid vop bias temp) := by
  unfold init_valid; infer_instance

/-- The object at the moment `init_internal` starts the reset pulse, all three
checks passed: addressing override applied, given values stored. -/
def init_stores (self : mcd8544_MCD8544_obj_t) (horizontal vop bias temp : Int) :
    mcd8544_MCD8544_obj_t :=
  { cs := self.cs, reset := self.reset, fn := (set_addressing self horizontal).fn,
    vop := if vop ≠ -1 then to_uint8 (int_bits vop) else self.vop,
    bias := if bias ≠ -1 then to_uint8 (int_bits bias) else self.bias,
    temp := if temp ≠ -1 then to_uint8 (int_bits temp) else self.temp }

/-- The opcode constant a command byte is built from at its `write_cmd` call;
`raw` is the byte of `mcd8544_MCD8544_command`, which has none. -/
inductive Kind where
  | function_set
  | temp_coeff
  | bias
  | vop
  | col_addr
  | bank_addr
  | display_mode
  | raw
  deriving DecidableEq, Repr

/-- The seven `write_cmd` calls of `init_internal`, each byte with the opcode
it is built from: the three writes of `self->fn` are function-set commands. -/
def labelled_init_sequence (self : mcd8544_MCD8544_obj_t) : List (Kind × uint8_t) :=
  [(Kind.function_set, to_uint8 (self.fn.val ||| MCD8544_EXTENDED_INSTR)),
   (Kind.temp_coeff, to_uint8 (MCD8544_TEMP_COEFF ||| self.temp.val)),
   (Kind.bias, to_uint8 (MCD8544_BIAS ||| self.bias.val)),
   (Kind.vop, to_uint8 (MCD8544_VOP ||| self.vop.val)),
   (Kind.function_set, to_uint8 (self.fn.val &&& int_not MCD8544_EXTENDED_INSTR)),
   (Kind.function_set, to_uint8 (to_uint8 (self.fn.val &&& int_not MCD8544_POWER_DOWN)).val),
   (Kind.display_mode, to_uint8 MCD8544_DISPLAY_NORMAL)]

/-- The `write_cmd` calls of a method call in order, each byte with the opcode
constant it is built from in the source. -/
def labelled_commands (null_int : Option Int) (self : mcd8544_MCD8544_obj_t) :
    Op → List (Kind × uint8_t)
  | Op.init horizontal vop bias temp =>
    if init_valid (to_int vop) (to_int bias) (to_int temp) then
      labelled_init_sequence
        (init_stores self (to_int horizontal) (to_int vop) (to_int bias) (to_int temp))
    else []
  | Op.reset => []
  | Op.power on_ => [(Kind.function_set, (mcd8544_MCD8544_power self on_).self.fn)]
  | Op.invert inverted =>
    [(Kind.display_mode,
      to_uint8 (if inverted then MCD8544_DISPLAY_INVERSE else MCD8544_DISPLAY_NORMAL))]
  | Op.display normal =>
    [(Kind.display_mode,
      to_uint8 (if normal then MCD8544_DISPLAY_NORMAL else MCD8544_DISPLAY_BLANK))]
  | Op.test testing =>
    [(Kind.display_mode,
      to_uint8 (if testing then MCD8544_DISPLAY_ALL else MCD8544_DISPLAY_NORMAL))]
  | Op.position x y =>
    [(Kind.col_addr, to_uint8 (MCD8544_COL_ADDR ||| (int_bits x &&& 0x7F))),
     (Kind.bank_addr, to_uint8 (MCD8544_BANK_ADDR ||| (int_bits y &&& 0x3F)))]
  | Op.fill _ =>
    match null_int with
    | some v =>
      [(Kind.col_addr, to_uint8 (MCD8544_COL_ADDR ||| (int_bits v &&& 0x7F))),
       (Kind.bank_addr, to_uint8 (MCD8544_BANK_ADDR ||| (int_bits v &&& 0x3F)))]
    | none => []
  | Op.text _ => []
  | Op.command command => [(Kind.raw, to_uint8 (int_bits command))]
  | Op.data _ => []

/-- The eight font bytes `text` sends for the string byte `b`. -/
def glyph (font : Nat → uint8_t) (b : uint8_t) : List uint8_t :=
  (List.range 8).map fun k => font ((if 32 ≤ b.val ∧ b.val ≤ 127 then b.val - 32 else 95) * 8 + k)

/-- The data buffers a method call transfers, in order. -/
def data_part (font : Nat → uint8_t) : Op → List (List uint8_t)
  | Op.fill color => List.replicate 504 (List.replicate 8 (if color > 0 then 255 else 0))
  | Op.text str => (str.takeWhile fun b => decide (b.val ≠ 0)).map (glyph font)
  | Op.data data => if data.length > 0 then [data] else []
  | _ => []

/-- The transfers a method call is to make: its data buffers, each one
transfer with the data/command line high, then its command bytes, each one
transfer of a single byte with the line low. -/
def expected_transfers (font : Nat → uint8_t) (null_int : Option Int)
    (self : mcd8544_MCD8544_obj_t) (op : Op) : List (Bool × List uint8_t) :=
  (data_part font op).map (fun buf => (true, buf))
    ++ (labelled_commands null_int self op).map (fun p => (false, [p.2]))

/-- A call after which the function register is what was last sent: any call
but the raw command, and an `init` only if it passes its checks or leaves
`fn` as it was. -/
def mirror_safe (self : mcd8544_MCD8544_obj_t) : Op → Bool
  | Op.init horizontal vop bias temp =>
    decide (init_valid (to_int vop) (to_int bias) (to_int temp))
      || decide ((set_addressing self (to_int horizontal)).fn = self.fn)
  | Op.command _ => false
  | _ => true

/-- Every call of a sequence is `mirror_safe` on the object it meets. -/
def run_mirror_safe (font : Nat → uint8_t) (null_int : Option Int) :
    mcd8544_MCD8544_obj_t → List Op → Bool
  | _, [] => true
  | self, op :: ops =>
    mirror_safe self op && run_mirror_safe font null_int (step font null_int self op).self ops

/-- A call other than the raw command. -/
def not_raw_command : Op → Bool
  | Op.command _ => false
  | _ => true

/-- The labelled commands of successive method calls. -/
def labelled_run (font : Nat → uint8_t) (null_int : Option Int) :
    mcd8544_MCD8544_obj_t → List Op → List (Kind × uint8_t)
  | _, [] => []
  | self, op :: ops =>
    labelled_commands null_int self op
      ++ labelled_run font null_int (step font null_int self op).self ops

/-- One command seen against the active instruction set (`ext`: extended).  A
function-set command selects the set by its bit 0; temperature, bias and
contrast commands need the extended set; column, bank and display-mode
commands need the basic set; a raw byte is not followed. -/
def discipline_step (ext : Bool) : Kind × uint8_t → Option Bool
  | (Kind.function_set, c) => some (c.val.testBit 0)
  | (Kind.temp_coeff, _) => if ext then some ext else none
  | (Kind.bias, _) => if ext then some ext else none
  | (Kind.vop, _) => if ext then some ext else none
  | (Kind.col_addr, _) => if ext then none else some ext
  | (Kind.bank_addr, _) => if ext then none else some ext
  | (Kind.display_mode, _) => if ext then none else some ext
  | (Kind.raw, _) => none

/-- A command stream checked from the active set `ext`: the set that is
active after it, or `none` when a command came under the wrong set. -/
def discipline : Bool → List (Kind × uint8_t) → Option Bool
  | ext, [] => some ext
  | ext, c :: cs =>
    match discipline_step ext c with
    | some e => discipline e cs
    | none => none

/-! ## Chip-select brackets -/

/-- Where a trace stands relative to a transfer bracket: outside any; chip
select asserted; data/command line set; transfer done. -/
inductive Bracket where
  | idle
  | selected
  | armed
  | done
  deriving DecidableEq, Repr

/-- One event against the bracket discipline, `cs` telling whether a
chip-select pin is configured.  With the pin, a bracket is chip-select low,
one write of the data/command line, at most one transfer, chip-select high.
Without it, a bracket is one write of the data/command line and at most one
transfer.  Reset-pin writes, pin set-up and delays belong outside brackets. -/
def bracket_step (cs : Bool) : Bracket → Event → Option Bracket
  | Bracket.idle, Event.pin_write Line.cs false => if cs then some Bracket.selected else none
  | Bracket.idle, Event.pin_write Line.dc _ => if cs then none else some Bracket.armed
  | Bracket.idle, Event.pin_write Line.reset _ => some Bracket.idle
  | Bracket.idle, Event.delay_us _ => some Bracket.idle
  | Bracket.idle, Event.pin_output _ => some Bracket.idle
  | Bracket.selected, Event.pin_write Line.dc _ => some Bracket.armed
  | Bracket.armed, Event.spi_transfer _ => if cs then some Bracket.done else some Bracket.idle
  | Bracket.armed, Event.pin_write Line.cs true => if cs then some Bracket.idle else none
  | Bracket.armed, Event.pin_write Line.dc _ => if cs then none else some Bracket.armed
  | Bracket.armed, Event.pin_write Line.reset _ => if cs then none else some Bracket.idle
  | Bracket.armed, Event.delay_us _ => if cs then none else some Bracket.idle
  | Bracket.done, Event.pin_write Line.cs true => some Bracket.idle
  | _, _ => none

/-- A trace run through the bracket discipline; `none` once it is broken. -/
def bracket_run (cs : Bool) : Option Bracket → List Event → Option Bracket
  | st, [] => st
  | none, _ :: _ => none
  | some b, e :: tr => bracket_run cs (bracket_step cs b e) tr

/-- A trace keeps the bracket discipline when, run from outside any bracket,
it ends outside any bracket; without a chip-select pin it may also end on a
write of the data/command line that no transfer followed. -/
def bracket_ok (cs : Bool) (tr : List Event) : Bool :=
  match bracket_run cs (some Bracket.idle) tr with
  | some Bracket.idle => true
  | some Bracket.armed => !cs
  | _ => false

/-! ## Controller memory -/

/-- Modelled from the spec: the display RAM of the controller, which is
hardware and not source: 504 cells and an address counter over them. -/
structure DDRAM where
  mem : Fin 504 → uint8_t
  addr : Fin 504

/-- Modelled from the spec: a data byte is stored at the address counter,
which then advances by one cell and wraps around the 504 cells. -/
def ddram_write (st : DDRAM) (b : uint8_t) : DDRAM :=
  { mem := fun i => if i = st.addr then b else st.mem i
    addr := ⟨(st.addr.val + 1) % 504, Nat.mod_lt _ (by decide)⟩ }

/-- Modelled from the spec: a run of data bytes, stored one after the other. -/
def ddram_store (st : DDRAM) : List uint8_t → DDRAM
  | [] => st
  | b :: bs => ddram_store (ddram_write st b) bs

/-- Modelled from the spec: the controller fed with a trace.  Data transfers
are stored; a command byte leaves the memory alone and moves the address
counter as `cmd_addr` says. -/
def ddram_exec (cmd_addr : Fin 504 → uint8_t → Fin 504) (dc : Bool) (st : DDRAM) :
    List Event → DDRAM
  | [] => st
  | Event.pin_write Line.dc level :: tr => ddram_exec cmd_addr level st tr
  | Event.spi_transfer buf :: tr =>
    if dc then ddram_exec cmd_addr dc (ddram_store st buf) tr
    else ddram_exec cmd_addr dc
      (buf.foldl (fun s c => { s with addr := cmd_addr s.addr c }) st) tr
  | _ :: tr => ddram_exec cmd_addr dc st tr

/-- The display parameters fit their fields: contrast seven bits, bias three,
temperature coefficient two. -/
def params_ok (self : mcd8544_MCD8544_obj_t) : Prop :=
  self.vop.val ≤ 127 ∧ self.bias.val ≤ 7 ∧ self.temp.val ≤ 3

instance (self : mcd8544_MCD8544_obj_t) : Decidable (params_ok self) := by
  unfold params_ok; infer_instance

/-- The four values the function register can take: the function-set opcode
with any of power-down and vertical addressing, extended bit clear. -/
def fn_shape (fn : uint8_t) : Prop :=
  fn.val = 0x20 ∨ fn.val = 0x22 ∨ fn.val = 0x24 ∨ fn.val = 0x26

instance (fn : uint8_t) : Decidable (fn_shape fn) := by
  unfold fn_shape; infer_instance

/-! ## Lemmas on traces -/

theorem command_bytes_write_cmd (self : mcd8544_MCD8544_obj_t) (cmd : Nat) (dc : Bool)
    (rest : List Event) :
    command_bytes dc (write_cmd self cmd ++ rest) = to_uint8 cmd :: command_bytes false rest := by
  cases hcs : self.cs <;>
    simp [write_cmd, CS_LOW, CS_HIGH, DC_LOW, write_spi, command_bytes, hcs]

theorem data_bytes_write_cmd (self : mcd8544_MCD8544_obj_t) (cmd : Nat) (dc : Bool)
    (rest : List Event) :
    data_bytes dc (write_cmd self cmd ++ rest) = data_bytes false rest := by
  cases hcs : self.cs <;>
    simp [write_cmd, CS_LOW, CS_HIGH, DC_LOW, write_spi, data_bytes, hcs]

theorem command_bytes_write_data (self : mcd8544_MCD8544_obj_t) (buf : List uint8_t) (dc : Bool)
    (rest : List Event) :
    command_bytes dc (write_data self buf ++ rest) = command_bytes true rest := by
  cases hcs : self.cs <;> by_cases hl : buf.length > 0 <;>
    simp [write_data, CS_LOW, CS_HIGH, DC_HIGH, write_spi, command_bytes, hcs, hl]

theorem data_bytes_write_data (self : mcd8544_MCD8544_obj_t) (buf : List uint8_t) (dc : Bool)
    (rest : List Event) :
    data_bytes dc (write_data self buf ++ rest) = buf ++ data_bytes true rest := by
  cases hcs : self.cs <;> cases buf <;>
    simp [write_data, CS_LOW, CS_HIGH, DC_HIGH, write_spi, data_bytes, hcs]

theorem command_bytes_reset (self : mcd8544_MCD8544_obj_t) (dc : Bool) (rest : List Event) :
    command_bytes dc ((mcd8544_MCD8544_reset self).trace ++ rest) = command_bytes dc rest := by
  cases hr : self.reset <;>
    simp [mcd8544_MCD8544_reset, RESET_LOW, RESET_HIGH, command_bytes, hr]

theorem data_bytes_reset (self : mcd8544_MCD8544_obj_t) (dc : Bool) (rest : List Event) :
    data_bytes dc ((mcd8544_MCD8544_reset self).trace ++ rest) = data_bytes dc rest := by
  cases hr : self.reset <;>
    simp [mcd8544_MCD8544_reset, RESET_LOW, RESET_HIGH, data_bytes, hr]

theorem default_obj_eq : default_obj =
    { cs := false, reset := false, fn := 0x20, vop := 0x3f, bias := 3, temp := 2 } := by
  decide

theorem reachable_default_obj : Reachable default_obj :=
  Reachable.make_new zero_obj false false 1 MCD8544_VOP_DEFAULT MCD8544_BIAS_DEFAULT
    MCD8544_TEMP_COEFF_DEFAULT (by decide)

theorem fill_loop_data_bytes (self : mcd8544_MCD8544_obj_t) (c : uint8_t)
    (rest : List Event) (n : Nat) :
    ∀ dc, data_bytes dc (fill_loop self (List.replicate 8 c) n ++ rest)
      = List.replicate (8 * n) c ++ data_bytes (if n = 0 then dc else true) rest := by
  induction n with
  | zero => intro dc; simp [fill_loop]
  | succ n ih =>
    intro dc
    rw [fill_loop, List.append_assoc, data_bytes_write_data, ih true, ← List.append_assoc,
      List.append_replicate_replicate, if_neg (Nat.succ_ne_zero n)]
    have e : 8 + 8 * n = 8 * (n + 1) := by omega
    rw [e]
    split_ifs <;> rfl

theorem fill_loop_command_bytes (self : mcd8544_MCD8544_obj_t) (buf : List uint8_t)
    (rest : List Event) (n : Nat) :
    ∀ dc, command_bytes dc (fill_loop self buf n ++ rest)
      = command_bytes (if n = 0 then dc else true) rest := by
  induction n with
  | zero => intro dc; simp [fill_loop]
  | succ n ih =>
    intro dc
    rw [fill_loop, List.append_assoc, command_bytes_write_data, ih true,
      if_neg (Nat.succ_ne_zero n)]
    split_ifs <;> rfl

/-! ## Lemmas on bytes -/

theorem to_uint8_val_of_lt {n : Nat} (h : n < 256) : (to_uint8 n).val = n := by
  simp [to_uint8, Nat.mod_eq_of_lt h]

theorem to_uint8_int_bits_val {x : Int} (h0 : 0 ≤ x) (h1 : x < 256) :
    (to_uint8 (int_bits x)).val = x.toNat := by
  simp only [to_uint8, int_bits]
  omega

theorem to_int_of_small {x : Int} (h0 : -2147483648 ≤ x) (h1 : x < 2147483648) :
    to_int x = x := by
  unfold to_int
  omega

theorem or_byte_lt {a b : Nat} (ha : a < 256) (hb : b < 256) : a ||| b < 256 :=
  Nat.or_lt_two_pow (n := 8) ha hb

theorem and_byte_lt {a : Nat} (m : Nat) (ha : a < 256) : a &&& m < 256 :=
  Nat.lt_of_le_of_lt Nat.and_le_left ha

theorem byte_testBit_high (a : uint8_t) {i : Nat} (h : 8 ≤ i) : a.val.testBit i = false := by
  have h8 : (256 : Nat) ≤ 2 ^ i := by
    have : 2 ^ 8 ≤ 2 ^ i := Nat.pow_le_pow_right (by decide) h
    simpa using this
  exact Nat.testBit_lt_two_pow (Nat.lt_of_lt_of_le a.isLt h8)

/-- A statement about every bit of a byte follows from the eight low bits. -/
theorem byte_testBit_lift (a : uint8_t) (f : Nat → Bool) (hf : ∀ i, 8 ≤ i → f i = false)
    (h : ∀ i : Fin 8, a.val.testBit i.val = f i.val) (i : Nat) : a.val.testBit i = f i := by
  by_cases hi : i < 8
  · exact h ⟨i, hi⟩
  · rw [byte_testBit_high a (by omega), hf i (by omega)]

set_option maxRecDepth 100000 in
theorem or_power_down_low_bits : ∀ fn : uint8_t, ∀ i : Fin 8,
    (to_uint8 (fn.val ||| MCD8544_POWER_DOWN)).val.testBit i.val
      = if i.val = 2 then true else fn.val.testBit i.val := by
  decide

set_option maxRecDepth 100000 in
theorem and_not_power_down_low_bits : ∀ fn : uint8_t, ∀ i : Fin 8,
    (to_uint8 (fn.val &&& int_not MCD8544_POWER_DOWN)).val.testBit i.val
      = if i.val = 2 then false else fn.val.testBit i.val := by
  decide

theorem or_power_down_testBit (fn : uint8_t) (i : Nat) :
    (to_uint8 (fn.val ||| MCD8544_POWER_DOWN)).val.testBit i
      = if i = 2 then true else fn.val.testBit i :=
  byte_testBit_lift _ (fun i => if i = 2 then true else fn.val.testBit i)
    (fun i hi => by simp [byte_testBit_high fn hi]; omega) (or_power_down_low_bits fn) i

theorem and_not_power_down_testBit (fn : uint8_t) (i : Nat) :
    (to_uint8 (fn.val &&& int_not MCD8544_POWER_DOWN)).val.testBit i
      = if i = 2 then false else fn.val.testBit i :=
  byte_testBit_lift _ (fun i => if i = 2 then false else fn.val.testBit i)
    (fun i hi => by simp [byte_testBit_high fn hi]) (and_not_power_down_low_bits fn) i

set_option maxRecDepth 100000 in
theorem fn_shape_or_vert : ∀ fn : uint8_t, fn_shape fn →
    fn_shape (to_uint8 (fn.val ||| MCD8544_ADDRESSING_VERT)) := by
  decide

set_option maxRecDepth 100000 in
theorem fn_shape_and_not_vert : ∀ fn : uint8_t, fn_shape fn →
    fn_shape (to_uint8 (fn.val &&& int_not MCD8544_ADDRESSING_VERT)) := by
  decide

set_option maxRecDepth 100000 in
theorem fn_shape_or_power_down : ∀ fn : uint8_t, fn_shape fn →
    fn_shape (to_uint8 (fn.val ||| MCD8544_POWER_DOWN)) := by
  decide

set_option maxRecDepth 100000 in
theorem fn_shape_and_not_power_down : ∀ fn : uint8_t, fn_shape fn →
    fn_shape (to_uint8 (fn.val &&& int_not MCD8544_POWER_DOWN)) := by
  decide

set_option maxRecDepth 100000 in
theorem fn_shape_bits : ∀ fn : uint8_t, fn_shape fn →
    fn.val.testBit 0 = false ∧ fn.val / 8 = 4 := by
  decide

theorem fn_shape_set_addressing (self : mcd8544_MCD8544_obj_t) (horizontal : Int)
    (h : fn_shape self.fn) : fn_shape (set_addressing self horizontal).fn := by
  unfold set_addressing
  split_ifs
  · exact fn_shape_or_vert _ h
  · exact fn_shape_and_not_vert _ h
  · exact h

theorem position_command_bytes (self : mcd8544_MCD8544_obj_t) (x y : Int) (dc : Bool)
    (rest : List Event) :
    command_bytes dc ((mcd8544_MCD8544_position self x y).trace ++ rest)
      = to_uint8 (MCD8544_COL_ADDR ||| (int_bits x &&& 0x7F))
        :: to_uint8 (MCD8544_BANK_ADDR ||| (int_bits y &&& 0x3F)) :: command_bytes false rest := by
  unfold mcd8544_MCD8544_position
  simp only [List.append_assoc, command_bytes_write_cmd]

theorem position_data_bytes (self : mcd8544_MCD8544_obj_t) (x y : Int) (dc : Bool)
    (rest : List Event) :
    data_bytes dc ((mcd8544_MCD8544_position self x y).trace ++ rest) = data_bytes false rest := by
  unfold mcd8544_MCD8544_position
  simp only [List.append_assoc, data_bytes_write_cmd]

/-! ## Whole-screen fill -/

/-- Claim C1, as the code behaves: for every object, fill value and level of
the data/command line before the call, and whatever becomes of the closing
cursor call, `fill` hands the transport 4032 data bytes (504 transfers of
eight bytes), not 504; every one of them is 0xFF when the argument is positive
and 0x00 otherwise. -/
theorem fill_data_bytes (null_int : Option Int) (self : mcd8544_MCD8544_obj_t) (color : Int)
    (dc : Bool) :
    data_bytes dc (mcd8544_MCD8544_fill null_int self color).trace
        = List.replicate 4032 (if color > 0 then (255 : uint8_t) else 0)
      ∧ (data_bytes dc (mcd8544_MCD8544_fill null_int self color).trace).length = 4032
      ∧ (data_bytes dc (mcd8544_MCD8544_fill null_int self color).trace).length ≠ 504 := by
  have h : data_bytes dc (mcd8544_MCD8544_fill null_int self color).trace
      = List.replicate 4032 (if color > 0 then (255 : uint8_t) else 0) := by
    cases null_int with
    | none =>
      have := fill_loop_data_bytes self (if color > 0 then (255 : uint8_t) else 0) [] 504 dc
      simp only [List.append_nil] at this
      simp only [mcd8544_MCD8544_fill]
      rw [this]
      simp only [data_bytes, List.append_nil]
    | some v =>
      have := fill_loop_data_bytes self (if color > 0 then (255 : uint8_t) else 0)
        (mcd8544_MCD8544_position self v v).trace 504 dc
      have h2 := position_data_bytes self v v true []
      simp only [List.append_nil] at h2
      rw [if_neg (show ¬ (504 = 0) by decide), h2] at this
      simp only [mcd8544_MCD8544_fill]
      rw [this]
      simp only [data_bytes, List.append_nil]
  refine ⟨h, ?_, ?_⟩ <;> rw [h, List.length_replicate]
  decide

/-! ## Initialisation -/

theorem init_sequence_command_bytes (self : mcd8544_MCD8544_obj_t) (dc : Bool) :
    command_bytes dc (init_sequence self).trace =
      [to_uint8 (self.fn.val ||| MCD8544_EXTENDED_INSTR),
       to_uint8 (MCD8544_TEMP_COEFF ||| self.temp.val),
       to_uint8 (MCD8544_BIAS ||| self.bias.val),
       to_uint8 (MCD8544_VOP ||| self.vop.val),
       to_uint8 (self.fn.val &&& int_not MCD8544_EXTENDED_INSTR),
       to_uint8 (to_uint8 (self.fn.val &&& int_not MCD8544_POWER_DOWN)).val,
       to_uint8 MCD8544_DISPLAY_NORMAL] := by
  have h7 := command_bytes_write_cmd
    { self with fn := to_uint8 (self.fn.val &&& int_not MCD8544_POWER_DOWN) }
    MCD8544_DISPLAY_NORMAL false []
  simp only [List.append_nil] at h7
  simp only [init_sequence, List.append_assoc, command_bytes_reset, command_bytes_write_cmd, h7]
  rfl

theorem init_sequence_data_bytes (self : mcd8544_MCD8544_obj_t) (dc : Bool) :
    data_bytes dc (init_sequence self).trace = [] := by
  have h7 := data_bytes_write_cmd
    { self with fn := to_uint8 (self.fn.val &&& int_not MCD8544_POWER_DOWN) }
    MCD8544_DISPLAY_NORMAL false []
  simp only [List.append_nil] at h7
  simp only [init_sequence, List.append_assoc, data_bytes_reset, data_bytes_write_cmd, h7]
  rfl

/-- When all three values pass their checks, `init_internal` reaches the
command sequence with the overrides stored. -/
theorem init_internal_of_valid (self : mcd8544_MCD8544_obj_t) (horizontal vop bias temp : Int)
    (hv : ¬ (vop ≠ -1 ∧ (vop < 0 ∨ vop > 127))) (hb : ¬ (bias ≠ -1 ∧ (bias < 0 ∨ bias > 7)))
    (ht : ¬ (temp ≠ -1 ∧ (temp < 0 ∨ temp > 3))) :
    mcd8544_MCD8544_init_internal self horizontal vop bias temp =
      init_sequence
        { cs := self.cs, reset := self.reset, fn := (set_addressing self horizontal).fn,
          vop := if vop ≠ -1 then to_uint8 (int_bits vop) else self.vop,
          bias := if bias ≠ -1 then to_uint8 (int_bits bias) else self.bias,
          temp := if temp ≠ -1 then to_uint8 (int_bits temp) else self.temp } := by
  have hs : (set_addressing self horizontal).cs = self.cs
      ∧ (set_addressing self horizontal).reset = self.reset
      ∧ (set_addressing self horizontal).vop = self.vop
      ∧ (set_addressing self horizontal).bias = self.bias
      ∧ (set_addressing self horizontal).temp = self.temp := by
    unfold set_addressing
    split_ifs <;> simp
  obtain ⟨h1, h2, h3, h4, h5⟩ := hs
  unfold mcd8544_MCD8544_init_internal
  simp only [hv, hb, ht, if_false]
  congr 1
  generalize set_addressing self horizontal = s at h1 h2 h3 h4 h5 ⊢
  cases s
  simp only at h1 h2 h3 h4 h5
  subst h1 h2 h3 h4 h5
  split_ifs <;> rfl

/-- Claim C2: for every object, every addressing-mode argument and every level
of the data/command line before the call, `init` with contrast in [0,127],
bias in [0,7] and temperature coefficient in [0,3] returns normally, and the
command bytes it sends are, in order: the function register (after the
addressing-mode override, made with the argument as converted to `int`) with
the extended bit set, the temperature command,
the bias command, the contrast command, the function register with the
extended bit cleared, the function register with power-down cleared, display
normal.  No byte is truncated on the way and no data byte is sent. -/
theorem init_command_stream (self : mcd8544_MCD8544_obj_t) (horizontal vop bias temp : Int)
    (dc : Bool) (hv : 0 ≤ vop ∧ vop ≤ 127) (hb : 0 ≤ bias ∧ bias ≤ 7)
    (ht : 0 ≤ temp ∧ temp ≤ 3) :
    (mcd8544_MCD8544_init self horizontal vop bias temp).raised = none
      ∧ (command_bytes dc (mcd8544_MCD8544_init self horizontal vop bias temp).trace).map Fin.val
        = [(set_addressing self (to_int horizontal)).fn.val ||| MCD8544_EXTENDED_INSTR,
           MCD8544_TEMP_COEFF ||| temp.toNat,
           MCD8544_BIAS ||| bias.toNat,
           MCD8544_VOP ||| vop.toNat,
           (set_addressing self (to_int horizontal)).fn.val &&& int_not MCD8544_EXTENDED_INSTR,
           (set_addressing self (to_int horizontal)).fn.val &&& int_not MCD8544_POWER_DOWN,
           MCD8544_DISPLAY_NORMAL]
      ∧ data_bytes dc (mcd8544_MCD8544_init self horizontal vop bias temp).trace = [] := by
  have n1 : to_int vop = vop := to_int_of_small (by omega) (by omega)
  have n2 : to_int bias = bias := to_int_of_small (by omega) (by omega)
  have n3 : to_int temp = temp := to_int_of_small (by omega) (by omega)
  unfold mcd8544_MCD8544_init
  rw [n1, n2, n3]
  generalize to_int horizontal = horizontal
  have hfn := (set_addressing self horizontal).fn.isLt
  have e := init_internal_of_valid self horizontal vop bias temp (by omega) (by omega) (by omega)
  have hv1 : vop ≠ -1 := by omega
  have hb1 : bias ≠ -1 := by omega
  have ht1 : temp ≠ -1 := by omega
  simp only [hv1, hb1, ht1, ne_eq, not_false_eq_true, if_true] at e
  have ev := to_uint8_int_bits_val hv.1 (show vop < 256 by omega)
  have eb := to_uint8_int_bits_val hb.1 (show bias < 256 by omega)
  have et := to_uint8_int_bits_val ht.1 (show temp < 256 by omega)
  have lv : vop.toNat < 128 := by omega
  have lb : bias.toNat < 8 := by omega
  have lt : temp.toNat < 4 := by omega
  refine ⟨?_, ?_, ?_⟩
  · rw [e]; rfl
  · rw [e, init_sequence_command_bytes]
    simp only [List.map_cons, List.map_nil, ev, eb, et]
    rw [to_uint8_val_of_lt (or_byte_lt hfn (by decide)),
      to_uint8_val_of_lt (or_byte_lt (by decide) (by omega)),
      to_uint8_val_of_lt (or_byte_lt (by decide) (by omega)),
      to_uint8_val_of_lt (or_byte_lt (by decide) (by omega)),
      to_uint8_val_of_lt (and_byte_lt _ hfn),
      to_uint8_val_of_lt (and_byte_lt _ hfn),
      to_uint8_val_of_lt (and_byte_lt _ hfn),
      to_uint8_val_of_lt (show MCD8544_DISPLAY_NORMAL < 256 by decide)]
  · rw [e, init_sequence_data_bytes]

/-- Witness for `init_command_stream`: the default object, vertical
addressing, contrast 127, bias 7, temperature 3. -/
theorem init_command_stream_witness :
    (mcd8544_MCD8544_init default_obj 0 127 7 3).raised = none
      ∧ (command_bytes false (mcd8544_MCD8544_init default_obj 0 127 7 3).trace).map Fin.val
        = [(set_addressing default_obj (to_int 0)).fn.val ||| MCD8544_EXTENDED_INSTR,
           MCD8544_TEMP_COEFF ||| (3 : Int).toNat,
           MCD8544_BIAS ||| (7 : Int).toNat,
           MCD8544_VOP ||| (127 : Int).toNat,
           (set_addressing default_obj (to_int 0)).fn.val &&& int_not MCD8544_EXTENDED_INSTR,
           (set_addressing default_obj (to_int 0)).fn.val &&& int_not MCD8544_POWER_DOWN,
           MCD8544_DISPLAY_NORMAL]
      ∧ data_bytes false (mcd8544_MCD8544_init default_obj 0 127 7 3).trace = [] :=
  init_command_stream default_obj 0 127 7 3 false (by decide) (by decide) (by decide)

/-! ## Initialisation with a value out of range -/

theorem init_internal_vop_raise (self : mcd8544_MCD8544_obj_t) (horizontal vop bias temp : Int)
    (hv : vop ≠ -1 ∧ (vop < 0 ∨ vop > 127)) :
    mcd8544_MCD8544_init_internal self horizontal vop bias temp =
      { self := set_addressing self horizontal, trace := [],
        raised := some (Raised.ValueError Param.vop) } := by
  unfold mcd8544_MCD8544_init_internal
  rw [if_pos hv]

theorem init_internal_bias_raise (self : mcd8544_MCD8544_obj_t) (horizontal vop bias temp : Int)
    (hv : ¬ (vop ≠ -1 ∧ (vop < 0 ∨ vop > 127))) (hb : bias ≠ -1 ∧ (bias < 0 ∨ bias > 7)) :
    mcd8544_MCD8544_init_internal self horizontal vop bias temp =
      { self := if vop ≠ -1 then
          { set_addressing self horizontal with vop := to_uint8 (int_bits vop) }
          else set_addressing self horizontal,
        trace := [], raised := some (Raised.ValueError Param.bias) } := by
  unfold mcd8544_MCD8544_init_internal
  rw [if_neg hv, if_pos hb]

theorem init_internal_temp_raise (self : mcd8544_MCD8544_obj_t) (horizontal vop bias temp : Int)
    (hv : ¬ (vop ≠ -1 ∧ (vop < 0 ∨ vop > 127))) (hb : ¬ (bias ≠ -1 ∧ (bias < 0 ∨ bias > 7)))
    (ht : temp ≠ -1 ∧ (temp < 0 ∨ temp > 3)) :
    (mcd8544_MCD8544_init_internal self horizontal vop bias temp).trace = []
      ∧ (mcd8544_MCD8544_init_internal self horizontal vop bias temp).raised
        = some (Raised.ValueError Param.temp)
      ∧ (mcd8544_MCD8544_init_internal self horizontal vop bias temp).self =
        { cs := self.cs, reset := self.reset, fn := (set_addressing self horizontal).fn,
          vop := if vop ≠ -1 then to_uint8 (int_bits vop) else self.vop,
          bias := if bias ≠ -1 then to_uint8 (int_bits bias) else self.bias,
          temp := self.temp } := by
  have hs : (set_addressing self horizontal).cs = self.cs
      ∧ (set_addressing self horizontal).reset = self.reset
      ∧ (set_addressing self horizontal).vop = self.vop
      ∧ (set_addressing self horizontal).bias = self.bias
      ∧ (set_addressing self horizontal).temp = self.temp := by
    unfold set_addressing
    split_ifs <;> simp
  obtain ⟨h1, h2, h3, h4, h5⟩ := hs
  unfold mcd8544_MCD8544_init_internal
  rw [if_neg hv, if_neg hb, if_pos ht]
  refine ⟨rfl, rfl, ?_⟩
  generalize set_addressing self horizontal = s at h1 h2 h3 h4 h5 ⊢
  cases s
  simp only at h1 h2 h3 h4 h5
  subst h1 h2 h3 h4 h5
  split_ifs <;> rfl

/-- Two values outside [0,127] that `init` accepts as contrast.  The value -1
stands for an argument that is not given: the call returns normally and the
stored contrast is kept.  The value 4294967301, which a 64-bit build hands
over, is converted to the `int` 5: the call returns normally and stores 5. -/
theorem init_accepts_outside_range :
    ¬ (0 ≤ (-1 : Int) ∧ (-1 : Int) ≤ 127)
      ∧ (mcd8544_MCD8544_init default_obj 1 (-1) 3 2).raised = none
      ∧ (mcd8544_MCD8544_init default_obj 1 (-1) 3 2).self.vop = default_obj.vop
      ∧ ¬ (0 ≤ (4294967301 : Int) ∧ (4294967301 : Int) ≤ 127)
      ∧ (mcd8544_MCD8544_init default_obj 1 4294967301 3 2).raised = none
      ∧ (mcd8544_MCD8544_init default_obj 1 4294967301 3 2).self.vop = 5 := by
  decide

/-- Claim C3, amended: for every object and every addressing-mode argument,
when the contrast, taken as the C `int` that `init_internal` receives, is
outside [0,127], or the bias outside [0,7], or the temperature coefficient
outside [0,3], that `int` not being -1 (which stands for an argument that is
not given), `init` raises `ValueError`, whatever the other arguments are.  For
an argument that fits a C `int`, as every argument does where `mp_int_t` and
`int` have the same width, the `int` is the argument itself. -/
theorem init_rejects_out_of_range (self : mcd8544_MCD8544_obj_t)
    (horizontal vop bias temp : Int)
    (hbad : (to_int vop ≠ -1 ∧ (to_int vop < 0 ∨ to_int vop > 127))
      ∨ (to_int bias ≠ -1 ∧ (to_int bias < 0 ∨ to_int bias > 7))
      ∨ (to_int temp ≠ -1 ∧ (to_int temp < 0 ∨ to_int temp > 3))) :
    (∃ which, (mcd8544_MCD8544_init self horizontal vop bias temp).raised
        = some (Raised.ValueError which))
      ∧ (∀ x : Int, -2147483648 ≤ x → x < 2147483648 → to_int x = x) := by
  refine ⟨?_, fun x h0 h1 => to_int_of_small h0 h1⟩
  unfold mcd8544_MCD8544_init
  generalize to_int horizontal = horizontal
  generalize to_int vop = vop at hbad ⊢
  generalize to_int bias = bias at hbad ⊢
  generalize to_int temp = temp at hbad ⊢
  by_cases hv : vop ≠ -1 ∧ (vop < 0 ∨ vop > 127)
  · exact ⟨Param.vop, by rw [init_internal_vop_raise _ _ _ _ _ hv]⟩
  · by_cases hb : bias ≠ -1 ∧ (bias < 0 ∨ bias > 7)
    · exact ⟨Param.bias, by rw [init_internal_bias_raise _ _ _ _ _ hv hb]⟩
    · have ht : temp ≠ -1 ∧ (temp < 0 ∨ temp > 3) := by tauto
      exact ⟨Param.temp, (init_internal_temp_raise _ _ _ _ _ hv hb ht).2.1⟩

/-- Witness for `init_rejects_out_of_range`: contrast 128, bias 8 and
temperature 4, one at a time, the other two in range, and the contrast
4294967424, which is converted to the `int` 128. -/
theorem init_rejects_out_of_range_witness :
    (∃ which, (mcd8544_MCD8544_init default_obj 1 128 3 2).raised
        = some (Raised.ValueError which))
      ∧ (∃ which, (mcd8544_MCD8544_init default_obj 1 63 8 2).raised
        = some (Raised.ValueError which))
      ∧ (∃ which, (mcd8544_MCD8544_init default_obj 1 63 3 4).raised
        = some (Raised.ValueError which))
      ∧ (∃ which, (mcd8544_MCD8544_init default_obj 1 4294967424 3 2).raised
        = some (Raised.ValueError which)) :=
  ⟨(init_rejects_out_of_range default_obj 1 128 3 2 (Or.inl (by decide))).1,
   (init_rejects_out_of_range default_obj 1 63 8 2 (Or.inr (Or.inl (by decide)))).1,
   (init_rejects_out_of_range default_obj 1 63 3 4 (Or.inr (Or.inr (by decide)))).1,
   (init_rejects_out_of_range default_obj 1 4294967424 3 2 (Or.inl (by decide))).1⟩

/-- `init` returns normally exactly when each value is -1 or in its range. -/
theorem init_internal_raised_none_iff (self : mcd8544_MCD8544_obj_t)
    (horizontal vop bias temp : Int) :
    (mcd8544_MCD8544_init_internal self horizontal vop bias temp).raised = none ↔
      ¬ (vop ≠ -1 ∧ (vop < 0 ∨ vop > 127)) ∧ ¬ (bias ≠ -1 ∧ (bias < 0 ∨ bias > 7))
        ∧ ¬ (temp ≠ -1 ∧ (temp < 0 ∨ temp > 3)) := by
  constructor
  · intro h
    by_cases hv : vop ≠ -1 ∧ (vop < 0 ∨ vop > 127)
    · rw [init_internal_vop_raise _ _ _ _ _ hv] at h; cases h
    · by_cases hb : bias ≠ -1 ∧ (bias < 0 ∨ bias > 7)
      · rw [init_internal_bias_raise _ _ _ _ _ hv hb] at h; cases h
      · by_cases ht : temp ≠ -1 ∧ (temp < 0 ∨ temp > 3)
        · rw [(init_internal_temp_raise _ _ _ _ _ hv hb ht).2.1] at h; cases h
        · exact ⟨hv, hb, ht⟩
  · rintro ⟨hv, hb, ht⟩
    rw [init_internal_of_valid _ _ _ _ _ hv hb ht]
    rfl

/-- Claim C4: for every object and all arguments, when `init` raises, its
event trace is empty: no byte went to the transport, no pin was written and
no delay of the reset pulse was started. -/
theorem init_raise_no_activity (self : mcd8544_MCD8544_obj_t) (horizontal vop bias temp : Int)
    (e : Raised) (hr : (mcd8544_MCD8544_init self horizontal vop bias temp).raised = some e) :
    (mcd8544_MCD8544_init self horizontal vop bias temp).trace = []
      ∧ transport_bytes (mcd8544_MCD8544_init self horizontal vop bias temp).trace = [] := by
  have ht : (mcd8544_MCD8544_init self horizontal vop bias temp).trace = [] := by
    unfold mcd8544_MCD8544_init at hr ⊢
    generalize to_int horizontal = horizontal at hr ⊢
    generalize to_int vop = vop at hr ⊢
    generalize to_int bias = bias at hr ⊢
    generalize to_int temp = temp at hr ⊢
    by_cases hv : vop ≠ -1 ∧ (vop < 0 ∨ vop > 127)
    · rw [init_internal_vop_raise _ _ _ _ _ hv]
    · by_cases hb : bias ≠ -1 ∧ (bias < 0 ∨ bias > 7)
      · rw [init_internal_bias_raise _ _ _ _ _ hv hb]
      · by_cases ht : temp ≠ -1 ∧ (temp < 0 ∨ temp > 3)
        · exact (init_internal_temp_raise _ _ _ _ _ hv hb ht).1
        · rw [(init_internal_raised_none_iff _ _ _ _ _).2 ⟨hv, hb, ht⟩] at hr
          cases hr
  exact ⟨ht, by rw [ht]; rfl⟩

/-- Witness for `init_raise_no_activity`: contrast 128 on an object with both
optional pins configured. -/
theorem init_raise_no_activity_witness :
    (mcd8544_MCD8544_init { default_obj with cs := true, reset := true } 1 128 3 2).trace = []
      ∧ transport_bytes
        (mcd8544_MCD8544_init { default_obj with cs := true, reset := true } 1 128 3 2).trace
          = [] :=
  init_raise_no_activity { default_obj with cs := true, reset := true } 1 128 3 2
    (Raised.ValueError Param.vop) (by decide)

theorem init_internal_fn_shape (self : mcd8544_MCD8544_obj_t) (horizontal vop bias temp : Int)
    (hs : fn_shape self.fn) :
    fn_shape (mcd8544_MCD8544_init_internal self horizontal vop bias temp).self.fn := by
  have ha := fn_shape_set_addressing self horizontal hs
  by_cases hv : vop ≠ -1 ∧ (vop < 0 ∨ vop > 127)
  · rw [init_internal_vop_raise _ _ _ _ _ hv]; exact ha
  · by_cases hb : bias ≠ -1 ∧ (bias < 0 ∨ bias > 7)
    · rw [init_internal_bias_raise _ _ _ _ _ hv hb]
      show fn_shape (if vop ≠ -1 then _ else _ : mcd8544_MCD8544_obj_t).fn
      split_ifs <;> exact ha
    · by_cases ht : temp ≠ -1 ∧ (temp < 0 ∨ temp > 3)
      · rw [(init_internal_temp_raise _ _ _ _ _ hv hb ht).2.2]; exact ha
      · rw [init_internal_of_valid _ _ _ _ _ hv hb ht]
        exact fn_shape_and_not_power_down _ ha

theorem fill_self (null_int : Option Int) (self : mcd8544_MCD8544_obj_t) (color : Int) :
    (mcd8544_MCD8544_fill null_int self color).self = self := by
  cases null_int <;> rfl

theorem step_fn_shape (font : Nat → uint8_t) (null_int : Option Int)
    (self : mcd8544_MCD8544_obj_t) (op : Op)
    (hs : fn_shape self.fn) : fn_shape (step font null_int self op).self.fn := by
  cases op with
  | init horizontal vop bias temp => exact init_internal_fn_shape self _ _ _ _ hs
  | power on_ =>
    cases on_
    · exact fn_shape_or_power_down _ hs
    · exact fn_shape_and_not_power_down _ hs
  | reset => exact hs
  | invert _ => exact hs
  | display _ => exact hs
  | test _ => exact hs
  | position _ _ => exact hs
  | fill color => exact (fill_self null_int self color).symm ▸ hs
  | text _ => exact hs
  | command _ => exact hs
  | data _ => exact hs

/-- On every reachable state the function register is one of 0x20, 0x22,
0x24, 0x26. -/
theorem reachable_fn_shape {self : mcd8544_MCD8544_obj_t} (h : Reachable self) :
    fn_shape self.fn := by
  induction h with
  | make_new alloc cs reset horizontal vop bias temp _ =>
    exact init_internal_fn_shape _ (to_int horizontal) (to_int vop) (to_int bias) (to_int temp)
      (by
        show fn_shape (to_uint8 (MCD8544_FUNCTION_SET ||| MCD8544_POWER_DOWN))
        decide)
  | step font null_int self op _ ih => exact step_fn_shape font null_int self op ih

/-! ## Successful initialisation -/

theorem power_command_bytes (self : mcd8544_MCD8544_obj_t) (on_ : Bool) (dc : Bool)
    (rest : List Event) :
    command_bytes dc ((mcd8544_MCD8544_power self on_).trace ++ rest)
      = (mcd8544_MCD8544_power self on_).self.fn :: command_bytes false rest := by
  unfold mcd8544_MCD8544_power
  simp only [command_bytes_write_cmd]
  congr 1
  apply Fin.ext
  exact to_uint8_val_of_lt (Fin.isLt _)

theorem power_data_bytes (self : mcd8544_MCD8544_obj_t) (on_ : Bool) (dc : Bool)
    (rest : List Event) :
    data_bytes dc ((mcd8544_MCD8544_power self on_).trace ++ rest) = data_bytes false rest := by
  unfold mcd8544_MCD8544_power
  simp only [data_bytes_write_cmd]

theorem power_testBit (self : mcd8544_MCD8544_obj_t) (on_ : Bool) (i : Nat) :
    (mcd8544_MCD8544_power self on_).self.fn.val.testBit i
      = if i = 2 then !on_ else self.fn.val.testBit i := by
  cases on_
  · exact or_power_down_testBit self.fn i
  · exact and_not_power_down_testBit self.fn i

/-- Claim C7: for every object, every boolean `on` and every level of the
data/command line before the call, `power(on)` returns normally, sets bit 2
(power-down) of `fn` to `not on` and leaves every other bit of `fn`, the pin
configuration and the stored contrast, bias and temperature unchanged; it
sends exactly one command byte, the updated `fn` itself, and no data. -/
theorem power_effect (self : mcd8544_MCD8544_obj_t) (on_ : Bool) (dc : Bool) :
    (mcd8544_MCD8544_power self on_).raised = none
      ∧ (∀ i, (mcd8544_MCD8544_power self on_).self.fn.val.testBit i
          = if i = 2 then !on_ else self.fn.val.testBit i)
      ∧ (mcd8544_MCD8544_power self on_).self.vop = self.vop
      ∧ (mcd8544_MCD8544_power self on_).self.bias = self.bias
      ∧ (mcd8544_MCD8544_power self on_).self.temp = self.temp
      ∧ (mcd8544_MCD8544_power self on_).self.cs = self.cs
      ∧ (mcd8544_MCD8544_power self on_).self.reset = self.reset
      ∧ command_bytes dc (mcd8544_MCD8544_power self on_).trace
          = [(mcd8544_MCD8544_power self on_).self.fn]
      ∧ data_bytes dc (mcd8544_MCD8544_power self on_).trace = [] := by
  have hc := power_command_bytes self on_ dc []
  have hd := power_data_bytes self on_ dc []
  simp only [List.append_nil] at hc hd
  refine ⟨rfl, power_testBit self on_, ?_, ?_, ?_, ?_, ?_, hc, hd⟩ <;> cases on_ <;> rfl

/-- Claim C8: for every object, `power(false)` followed by `power(true)` sends
exactly two command bytes and no data; each byte is the function register at
that moment; bit 1 (addressing mode) of both equals bit 1 of `fn` before the
calls; bit 2 (power-down) is set in the first and clear in the second; when
bit 2 of `fn` was clear before, the object after the two calls equals the
object before; on a reachable object both bytes are function-set commands
(pattern 0b00100xxx). -/
theorem power_round_trip (self : mcd8544_MCD8544_obj_t) (dc : Bool) :
    command_bytes dc ((mcd8544_MCD8544_power self false).trace
        ++ (mcd8544_MCD8544_power (mcd8544_MCD8544_power self false).self true).trace)
        = [(mcd8544_MCD8544_power self false).self.fn,
           (mcd8544_MCD8544_power (mcd8544_MCD8544_power self false).self true).self.fn]
      ∧ data_bytes dc ((mcd8544_MCD8544_power self false).trace
        ++ (mcd8544_MCD8544_power (mcd8544_MCD8544_power self false).self true).trace) = []
      ∧ (mcd8544_MCD8544_power self false).self.fn.val.testBit 1 = self.fn.val.testBit 1
      ∧ (mcd8544_MCD8544_power (mcd8544_MCD8544_power self false).self true).self.fn.val.testBit 1
          = self.fn.val.testBit 1
      ∧ (mcd8544_MCD8544_power self false).self.fn.val.testBit 2 = true
      ∧ (mcd8544_MCD8544_power (mcd8544_MCD8544_power self false).self true).self.fn.val.testBit 2
          = false
      ∧ (self.fn.val.testBit 2 = false →
          (mcd8544_MCD8544_power (mcd8544_MCD8544_power self false).self true).self = self)
      ∧ (Reachable self →
          (mcd8544_MCD8544_power self false).self.fn.val / 8 = 4
          ∧ (mcd8544_MCD8544_power (mcd8544_MCD8544_power self false).self true).self.fn.val / 8
            = 4) := by
  have hc2 := power_command_bytes (mcd8544_MCD8544_power self false).self true false []
  have hd2 := power_data_bytes (mcd8544_MCD8544_power self false).self true false []
  simp only [List.append_nil] at hc2 hd2
  refine ⟨?_, ?_, ?_, ?_, ?_, ?_, ?_, ?_⟩
  · rw [power_command_bytes, hc2]; rfl
  · rw [power_data_bytes, hd2]; rfl
  · rw [power_testBit, if_neg (by decide)]
  · rw [power_testBit, if_neg (by decide), power_testBit, if_neg (by decide)]
  · rw [power_testBit, if_pos rfl]; rfl
  · rw [power_testBit, if_pos rfl]; rfl
  · intro h2
    have hfn : (mcd8544_MCD8544_power (mcd8544_MCD8544_power self false).self true).self.fn
        = self.fn := by
      apply Fin.ext
      apply Nat.eq_of_testBit_eq
      intro i
      rw [power_testBit, power_testBit]
      by_cases hi : i = 2
      · rw [if_pos hi, hi, h2]; rfl
      · rw [if_neg hi, if_neg hi]
    cases self
    simp only [mcd8544_MCD8544_power] at hfn ⊢
    simp only [Bool.false_eq_true, if_false, if_true] at hfn ⊢
    rw [hfn]
  · intro hreach
    have s1 := step_fn_shape (fun _ => 0) none self (Op.power false) (reachable_fn_shape hreach)
    have s2 := step_fn_shape (fun _ => 0) none _ (Op.power true) s1
    exact ⟨(fn_shape_bits _ s1).2, (fn_shape_bits _ s2).2⟩

/-- Witness for `power_round_trip` on the default object, which is reachable
and powered on: both bytes are function-set commands and the object is
restored. -/
theorem power_round_trip_witness :
    (mcd8544_MCD8544_power (mcd8544_MCD8544_power default_obj false).self true).self = default_obj
      ∧ (mcd8544_MCD8544_power default_obj false).self.fn.val / 8 = 4
      ∧ (mcd8544_MCD8544_power (mcd8544_MCD8544_power default_obj false).self true).self.fn.val / 8
        = 4 :=
  ⟨(power_round_trip default_obj false).2.2.2.2.2.2.1 (by decide),
   (power_round_trip default_obj false).2.2.2.2.2.2.2 reachable_default_obj⟩

/-! ## Cursor position -/

theorem int_bits_and_mask (x : Int) (k : Nat) (hk : k ≤ 32) :
    int_bits x &&& (2 ^ k - 1) = (x % (2 ^ k : Nat)).toNat := by
  rw [Nat.and_pow_two_sub_one_eq_mod]
  unfold int_bits
  have hdvd : ((2 ^ k : Nat) : Int) ∣ 4294967296 := by
    have : (2 : Nat) ^ k ∣ 2 ^ 32 := Nat.pow_dvd_pow 2 hk
    exact_mod_cast this
  have hpos : (0 : Int) < ((2 ^ k : Nat) : Int) := by positivity
  have h1 : 0 ≤ x % 4294967296 := Int.emod_nonneg _ (by decide)
  have h2 : 0 ≤ x % ((2 ^ k : Nat) : Int) := Int.emod_nonneg _ (by omega)
  apply Int.ofNat.inj
  show (((x % 4294967296).toNat % 2 ^ k : Nat) : Int) = ((x % ((2 ^ k : Nat) : Int)).toNat : Int)
  rw [Int.natCast_mod, Int.toNat_of_nonneg h1, Int.toNat_of_nonneg h2,
    Int.emod_emod_of_dvd x hdvd]

set_option maxRecDepth 100000 in
theorem col_addr_field : ∀ c : Fin 128,
    (MCD8544_COL_ADDR ||| c.val) < 256 ∧ (MCD8544_COL_ADDR ||| c.val) / 128 = 1
      ∧ (MCD8544_COL_ADDR ||| c.val) % 128 = c.val := by
  decide

set_option maxRecDepth 100000 in
theorem bank_addr_field : ∀ b : Fin 64,
    (MCD8544_BANK_ADDR ||| b.val) < 256 ∧ (MCD8544_BANK_ADDR ||| b.val) / 64 = 1
      ∧ (MCD8544_BANK_ADDR ||| b.val) % 64 = b.val := by
  decide

/-- Claim C9: for every object, every pair of integers and every level of the
data/command line before the call, `position(x, y)` returns normally and sends
exactly two command bytes, `COL_ADDR | (x mod 128)` and then
`BANK_ADDR | (y mod 64)`, the residues being the low seven and six bits of the
two's-complement arguments; each value fits a byte, its bits above the field
are the opcode and its field is the residue; no data is sent and the object
is unchanged. -/
theorem position_commands (self : mcd8544_MCD8544_obj_t) (x y : Int) (dc : Bool) :
    (mcd8544_MCD8544_position self x y).raised = none
      ∧ (command_bytes dc (mcd8544_MCD8544_position self x y).trace).map Fin.val
          = [MCD8544_COL_ADDR ||| (x % 128).toNat, MCD8544_BANK_ADDR ||| (y % 64).toNat]
      ∧ (MCD8544_COL_ADDR ||| (x % 128).toNat) < 256
      ∧ (MCD8544_COL_ADDR ||| (x % 128).toNat) / 128 = MCD8544_COL_ADDR / 128
      ∧ (MCD8544_COL_ADDR ||| (x % 128).toNat) % 128 = (x % 128).toNat
      ∧ (MCD8544_BANK_ADDR ||| (y % 64).toNat) < 256
      ∧ (MCD8544_BANK_ADDR ||| (y % 64).toNat) / 64 = MCD8544_BANK_ADDR / 64
      ∧ (MCD8544_BANK_ADDR ||| (y % 64).toNat) % 64 = (y % 64).toNat
      ∧ data_bytes dc (mcd8544_MCD8544_position self x y).trace = []
      ∧ (mcd8544_MCD8544_position self x y).self = self := by
  have hx : int_bits x &&& 0x7F = (x % 128).toNat := int_bits_and_mask x 7 (by decide)
  have hy : int_bits y &&& 0x3F = (y % 64).toNat := int_bits_and_mask y 6 (by decide)
  have lx : (x % 128).toNat < 128 := by omega
  have ly : (y % 64).toNat < 64 := by omega
  obtain ⟨c1, c2, c3⟩ := col_addr_field ⟨(x % 128).toNat, lx⟩
  obtain ⟨b1, b2, b3⟩ := bank_addr_field ⟨(y % 64).toNat, ly⟩
  have hc := position_command_bytes self x y dc []
  have hd := position_data_bytes self x y dc []
  simp only [List.append_nil] at hc hd
  refine ⟨rfl, ?_, c1, c2, c3, b1, b2, b3, ?_, rfl⟩
  · rw [hc, hx, hy]
    simp only [List.map_cons, command_bytes, List.map_nil]
    rw [to_uint8_val_of_lt c1, to_uint8_val_of_lt b1]
  · rw [hd]; rfl

/-- The call `position(84, 6)` sends the bytes 0xD4 and 0x46: the column field
is 84, since 84 is below 128, and not 20. -/
theorem cursor_84_6_column_field_is_84 :
    (command_bytes false (mcd8544_MCD8544_position default_obj 84 6).trace).map Fin.val
        = [0xD4, 0x46]
      ∧ (0xD4 : Nat) ≠ MCD8544_COL_ADDR ||| 20
      ∧ (0xD4 : Nat) % 128 ≠ 20 := by
  decide

/-- Claim C10, amended: for every object and every level of the data/command
line before the call, `position(84, 6)` sends the column-address command
`COL_ADDR | 84` (0xD4), whose seven-bit field is 84, and then the bank-address
command `BANK_ADDR | 6` (0x46), whose six-bit field is 6. -/
theorem position_84_6 (self : mcd8544_MCD8544_obj_t) (dc : Bool) :
    (command_bytes dc (mcd8544_MCD8544_position self 84 6).trace).map Fin.val
        = [MCD8544_COL_ADDR ||| 84, MCD8544_BANK_ADDR ||| 6]
      ∧ (MCD8544_COL_ADDR ||| 84) = 0xD4 ∧ (MCD8544_COL_ADDR ||| 84) % 128 = 84
      ∧ (MCD8544_BANK_ADDR ||| 6) = 0x46 ∧ (MCD8544_BANK_ADDR ||| 6) % 64 = 6 := by
  have hc := position_command_bytes self 84 6 dc []
  simp only [List.append_nil] at hc
  refine ⟨?_, by decide, by decide, by decide, by decide⟩
  rw [hc]
  decide

/-! ## Transfers of each operation -/

theorem transfers_write_cmd (self : mcd8544_MCD8544_obj_t) (cmd : Nat) (dc : Bool)
    (rest : List Event) :
    transfers dc (write_cmd self cmd ++ rest) = (false, [to_uint8 cmd]) :: transfers false rest := by
  cases hcs : self.cs <;>
    simp [write_cmd, CS_LOW, CS_HIGH, DC_LOW, write_spi, transfers, hcs]

theorem transfers_write_data (self : mcd8544_MCD8544_obj_t) (buf : List uint8_t) (dc : Bool)
    (rest : List Event) :
    transfers dc (write_data self buf ++ rest)
      = (if buf.length > 0 then [(true, buf)] else []) ++ transfers true rest := by
  cases hcs : self.cs <;> by_cases hl : buf.length > 0 <;>
    simp [write_data, CS_LOW, CS_HIGH, DC_HIGH, write_spi, transfers, hcs, hl]

theorem transfers_reset (self : mcd8544_MCD8544_obj_t) (dc : Bool) (rest : List Event) :
    transfers dc ((mcd8544_MCD8544_reset self).trace ++ rest) = transfers dc rest := by
  cases hr : self.reset <;>
    simp [mcd8544_MCD8544_reset, RESET_LOW, RESET_HIGH, transfers, hr]

/-- Command bytes are the bytes of the transfers made with the line low. -/
theorem command_bytes_eq_transfers (tr : List Event) :
    ∀ dc, command_bytes dc tr
      = (((transfers dc tr).filter fun x => !x.1).map fun x => x.2).flatten := by
  induction tr with
  | nil => intro dc; rfl
  | cons e tr ih =>
    intro dc
    cases e with
    | pin_output l => simpa [command_bytes, transfers] using ih dc
    | delay_us n => simpa [command_bytes, transfers] using ih dc
    | spi_transfer buf =>
      cases dc <;> simp [command_bytes, transfers, ih]
    | pin_write l level =>
      cases l <;> simp [command_bytes, transfers, ih]

/-- Data bytes are the bytes of the transfers made with the line high. -/
theorem data_bytes_eq_transfers (tr : List Event) :
    ∀ dc, data_bytes dc tr
      = (((transfers dc tr).filter fun x => x.1).map fun x => x.2).flatten := by
  induction tr with
  | nil => intro dc; rfl
  | cons e tr ih =>
    intro dc
    cases e with
    | pin_output l => simpa [data_bytes, transfers] using ih dc
    | delay_us n => simpa [data_bytes, transfers] using ih dc
    | spi_transfer buf =>
      cases dc <;> simp [data_bytes, transfers, ih]
    | pin_write l level =>
      cases l <;> simp [data_bytes, transfers, ih]

theorem transfers_append (a b : List Event) :
    ∀ dc, transfers dc (a ++ b) = transfers dc a ++ transfers (dc_after dc a) b := by
  induction a with
  | nil => intro dc; rfl
  | cons e a ih =>
    intro dc
    cases e with
    | pin_output l => simpa [transfers, dc_after] using ih dc
    | delay_us n => simpa [transfers, dc_after] using ih dc
    | spi_transfer buf => simpa [transfers, dc_after] using ih dc
    | pin_write l level =>
      cases l <;> simp [transfers, dc_after, ih]

theorem transfers_fill_loop (self : mcd8544_MCD8544_obj_t) (buf : List uint8_t)
    (hbuf : buf.length > 0) (rest : List Event) (n : Nat) :
    ∀ dc, transfers dc (fill_loop self buf n ++ rest)
      = List.replicate n (true, buf) ++ transfers (if n = 0 then dc else true) rest := by
  induction n with
  | zero => intro dc; simp [fill_loop]
  | succ n ih =>
    intro dc
    rw [fill_loop, List.append_assoc, transfers_write_data, if_pos hbuf, ih true,
      if_neg (Nat.succ_ne_zero n), List.replicate_succ]
    split_ifs <;> rfl

theorem text_glyph (font : Nat → uint8_t) (b : uint8_t) :
    ((List.range 8).map fun k =>
        font (((if b.val < 32 ∨ b.val > 127 then 127 else b.val) - 32) * 8 + k))
      = glyph font b := by
  have e : (if b.val < 32 ∨ b.val > 127 then 127 else b.val) - 32
      = (if 32 ≤ b.val ∧ b.val ≤ 127 then b.val - 32 else 95) := by
    split_ifs <;> omega
  unfold glyph
  rw [e]

theorem glyph_length (font : Nat → uint8_t) (b : uint8_t) : (glyph font b).length = 8 := by
  simp [glyph]

theorem transfers_text_loop (self : mcd8544_MCD8544_obj_t) (font : Nat → uint8_t)
    (str : List uint8_t) :
    ∀ dc, transfers dc (mcd8544_MCD8544_text_loop self font str)
      = ((str.takeWhile fun b => decide (b.val ≠ 0)).map (glyph font)).map
          (fun buf => (true, buf)) := by
  induction str with
  | nil => intro dc; rfl
  | cons b str ih =>
    intro dc
    by_cases hb : b.val = 0
    · simp [mcd8544_MCD8544_text_loop, hb, List.takeWhile_cons, transfers]
    · simp only [mcd8544_MCD8544_text_loop, hb, if_false, text_glyph]
      rw [transfers_write_data, if_pos (by rw [glyph_length]; decide), ih true]
      simp [List.takeWhile_cons, hb]

theorem transfers_init_sequence (self : mcd8544_MCD8544_obj_t) (dc : Bool) :
    transfers dc (init_sequence self).trace
      = (labelled_init_sequence self).map (fun p => (false, [p.2])) := by
  have h7 := transfers_write_cmd
    { self with fn := to_uint8 (self.fn.val &&& int_not MCD8544_POWER_DOWN) }
    MCD8544_DISPLAY_NORMAL false []
  simp only [List.append_nil] at h7
  simp only [init_sequence, List.append_assoc, transfers_reset, transfers_write_cmd, h7]
  rfl

theorem init_internal_of_init_valid (self : mcd8544_MCD8544_obj_t)
    (horizontal vop bias temp : Int) (h : init_valid vop bias temp) :
    mcd8544_MCD8544_init_internal self horizontal vop bias temp
      = init_sequence (init_stores self horizontal vop bias temp) :=
  init_internal_of_valid self horizontal vop bias temp h.1 h.2.1 h.2.2

theorem init_internal_trace_of_not_valid (self : mcd8544_MCD8544_obj_t)
    (horizontal vop bias temp : Int) (h : ¬ init_valid vop bias temp) :
    (mcd8544_MCD8544_init_internal self horizontal vop bias temp).trace = [] := by
  by_cases hv : vop ≠ -1 ∧ (vop < 0 ∨ vop > 127)
  · rw [init_internal_vop_raise _ _ _ _ _ hv]
  · by_cases hb : bias ≠ -1 ∧ (bias < 0 ∨ bias > 7)
    · rw [init_internal_bias_raise _ _ _ _ _ hv hb]
    · by_cases ht : temp ≠ -1 ∧ (temp < 0 ∨ temp > 3)
      · exact (init_internal_temp_raise _ _ _ _ _ hv hb ht).1
      · exact absurd ⟨hv, hb, ht⟩ h

/-- Every method call makes exactly the transfers expected of it, whatever
the level of the data/command line before the call. -/
theorem transfers_step (font : Nat → uint8_t) (null_int : Option Int)
    (self : mcd8544_MCD8544_obj_t) (op : Op) (dc : Bool) :
    transfers dc (step font null_int self op).trace
      = expected_transfers font null_int self op := by
  have one : ∀ (s : mcd8544_MCD8544_obj_t) (c : Nat),
      transfers dc (write_cmd s c) = [(false, [to_uint8 c])] := by
    intro s c
    have := transfers_write_cmd s c dc []
    simpa [transfers] using this
  have two : ∀ (s : mcd8544_MCD8544_obj_t) (c d : Nat) (dc : Bool),
      transfers dc (write_cmd s c ++ write_cmd s d)
        = [(false, [to_uint8 c]), (false, [to_uint8 d])] := by
    intro s c d dc
    have h2 := transfers_write_cmd s d false []
    simp only [List.append_nil] at h2
    rw [transfers_write_cmd, h2]
    rfl
  cases op with
  | init horizontal vop bias temp =>
    simp only [step, mcd8544_MCD8544_init, expected_transfers, data_part, labelled_commands,
      List.map_nil, List.nil_append]
    generalize to_int horizontal = horizontal
    generalize to_int vop = vop
    generalize to_int bias = bias
    generalize to_int temp = temp
    by_cases hvalid : init_valid vop bias temp
    · rw [if_pos hvalid, init_internal_of_init_valid _ _ _ _ _ hvalid, transfers_init_sequence]
    · rw [if_neg hvalid, init_internal_trace_of_not_valid _ _ _ _ _ hvalid]
      rfl
  | reset =>
    have := transfers_reset self dc []
    simpa [step, expected_transfers, data_part, labelled_commands, transfers] using this
  | power on_ =>
    simp only [step, expected_transfers, data_part, labelled_commands, List.map_nil,
      List.nil_append, List.map_cons]
    unfold mcd8544_MCD8544_power
    simp only [one]
    congr 3
    apply Fin.ext
    exact to_uint8_val_of_lt (Fin.isLt _)
  | invert inverted =>
    cases inverted <;>
      simp [step, expected_transfers, data_part, labelled_commands, mcd8544_MCD8544_invert, one]
  | display normal =>
    cases normal <;>
      simp [step, expected_transfers, data_part, labelled_commands, mcd8544_MCD8544_display, one]
  | test testing =>
    cases testing <;>
      simp [step, expected_transfers, data_part, labelled_commands, mcd8544_MCD8544_test, one]
  | position x y =>
    simp only [step, expected_transfers, data_part, labelled_commands, List.map_nil,
      List.nil_append, List.map_cons, mcd8544_MCD8544_position, two]
  | fill color =>
    cases null_int with
    | none =>
      have := transfers_fill_loop self (List.replicate 8 (if color > 0 then (255 : uint8_t) else 0))
        (by simp) [] 504 dc
      rw [if_neg (show ¬ (504 = 0) by decide)] at this
      simp only [List.append_nil, transfers] at this
      simp only [step, mcd8544_MCD8544_fill, expected_transfers, data_part, labelled_commands,
        List.map_nil, List.append_nil, List.map_replicate]
      rw [this]
    | some v =>
      have := transfers_fill_loop self (List.replicate 8 (if color > 0 then (255 : uint8_t) else 0))
        (by simp) (mcd8544_MCD8544_position self v v).trace 504 dc
      rw [if_neg (show ¬ (504 = 0) by decide)] at this
      simp only [step, mcd8544_MCD8544_fill, expected_transfers, data_part, labelled_commands,
        List.map_nil, List.map_cons, List.map_replicate]
      rw [this]
      simp only [mcd8544_MCD8544_position, two]
  | text str =>
    simp only [step, mcd8544_MCD8544_text, expected_transfers, data_part, labelled_commands,
      List.map_nil, List.append_nil]
    exact transfers_text_loop self font str dc
  | command command =>
    simp only [step, expected_transfers, data_part, labelled_commands, List.map_nil,
      List.nil_append, List.map_cons, mcd8544_MCD8544_command, one]
  | data data =>
    have := transfers_write_data self data dc []
    simp only [List.append_nil] at this
    simp only [step, mcd8544_MCD8544_data, expected_transfers, data_part, labelled_commands,
      List.map_nil, List.append_nil]
    rw [this]
    by_cases hl : data.length > 0 <;> simp [hl, transfers]

theorem command_bytes_step (font : Nat → uint8_t) (null_int : Option Int)
    (self : mcd8544_MCD8544_obj_t) (op : Op) (dc : Bool) :
    command_bytes dc (step font null_int self op).trace
      = (labelled_commands null_int self op).map Prod.snd := by
  rw [command_bytes_eq_transfers, transfers_step, expected_transfers, List.filter_append]
  have h1 : (List.map (fun buf => (true, buf)) (data_part font op)).filter (fun x => !x.1)
      = [] := by
    apply List.filter_eq_nil_iff.2
    intro x hx
    obtain ⟨b, _, rfl⟩ := List.mem_map.1 hx
    simp
  have h2 : ∀ l : List (Kind × uint8_t),
      (((l.map fun p => (false, [p.2])).filter fun x => !x.1).map fun x => x.2).flatten
        = l.map Prod.snd := by
    intro l
    induction l with
    | nil => rfl
    | cons a l ih => simpa using ih
  rw [h1, List.nil_append, h2]

theorem data_bytes_step (font : Nat → uint8_t) (null_int : Option Int)
    (self : mcd8544_MCD8544_obj_t) (op : Op) (dc : Bool) :
    data_bytes dc (step font null_int self op).trace = (data_part font op).flatten := by
  rw [data_bytes_eq_transfers, transfers_step, expected_transfers, List.filter_append]
  have h1 : (List.map (fun p : Kind × uint8_t => (false, [p.2]))
      (labelled_commands null_int self op)).filter (fun x => x.1) = [] := by
    apply List.filter_eq_nil_iff.2
    intro x hx
    obtain ⟨b, _, rfl⟩ := List.mem_map.1 hx
    simp
  have h2 : ∀ l : List (List uint8_t),
      (((l.map fun buf => (true, buf)).filter fun x => x.1).map fun x => x.2).flatten
        = l.flatten := by
    intro l
    induction l with
    | nil => rfl
    | cons a l ih => simpa using ih
  rw [h1, List.append_nil, h2]

/-! ## Text -/

/-- A zero byte ends the text: of the bytes `A`, 0, `B` only the glyph of `A`
is sent, and a text that starts with the zero byte sends nothing, not glyph
127.  A character above 127 reaches the driver as several bytes; the two
bytes 0xC3 0x88 of `chr(200)` send two transfers. -/
theorem text_stops_at_zero_byte :
    transfers false (mcd8544_MCD8544_text default_obj (fun n => to_uint8 n) [0x41, 0x00, 0x42]).trace
        = [(true, [8, 9, 10, 11, 12, 13, 14, 15])]
      ∧ transfers false (mcd8544_MCD8544_text default_obj (fun n => to_uint8 n) [0x00]).trace = []
      ∧ (transfers false
          (mcd8544_MCD8544_text default_obj (fun n => to_uint8 n) [0xC3, 0x88]).trace).length
        = 2 := by
  decide

/-- Claim C11, amended: for every object, font table and text, `text` returns
normally and sends, for each byte of the text before its first zero byte, in
order, exactly one data transfer of the eight font bytes at offset
`(b - 32) * 8` when the byte `b` is in [32,127] and at offset `95 * 8`, the
glyph of code point 127, otherwise; it sends no command and leaves the object
unchanged.  The text `A` sends one transfer, font entry 33; the two bytes of
`chr(200)` send the glyph of code point 127 twice; every font index used is
at most 95. -/
theorem text_transfers (self : mcd8544_MCD8544_obj_t) (font : Nat → uint8_t)
    (str : List uint8_t) (dc : Bool) :
    (mcd8544_MCD8544_text self font str).raised = none
      ∧ transfers dc (mcd8544_MCD8544_text self font str).trace
          = (str.takeWhile fun b => decide (b.val ≠ 0)).map (fun b =>
              (true, (List.range 8).map fun k =>
                font ((if 32 ≤ b.val ∧ b.val ≤ 127 then b.val - 32 else 95) * 8 + k)))
      ∧ command_bytes dc (mcd8544_MCD8544_text self font str).trace = []
      ∧ (mcd8544_MCD8544_text self font str).self = self
      ∧ transfers dc (mcd8544_MCD8544_text self font [0x41]).trace
          = [(true, (List.range 8).map fun k => font (33 * 8 + k))]
      ∧ transfers dc (mcd8544_MCD8544_text self font [0xC3, 0x88]).trace
          = [(true, (List.range 8).map fun k => font (95 * 8 + k)),
             (true, (List.range 8).map fun k => font (95 * 8 + k))]
      ∧ (∀ b : uint8_t, (if 32 ≤ b.val ∧ b.val ≤ 127 then b.val - 32 else 95) ≤ 95) := by
  have ht : ∀ s : List uint8_t, transfers dc (mcd8544_MCD8544_text self font s).trace
      = (s.takeWhile fun b => decide (b.val ≠ 0)).map (fun b =>
          (true, (List.range 8).map fun k =>
            font ((if 32 ≤ b.val ∧ b.val ≤ 127 then b.val - 32 else 95) * 8 + k))) := by
    intro s
    have := transfers_text_loop self font s dc
    rw [List.map_map] at this
    exact this
  refine ⟨rfl, ht str, ?_, rfl, ?_, ?_, ?_⟩
  · exact command_bytes_step font none self (Op.text str) dc
  · rw [ht]; rfl
  · rw [ht]; rfl
  · intro b
    split_ifs <;> omega

/-! ## Cursor after fill -/

/-- Claim C12, as the code behaves: `fill` closes with
`mcd8544_MCD8544_position(self, 0, 0)`, which passes the null handle and not
integer objects.  When `mp_obj_get_int` does not return on the null handle,
`fill` ends in a fault after its data and sends no command at all; when it
returns a value `v`, the two commands sent are `COL_ADDR | (v mod 128)` and
`BANK_ADDR | (v mod 64)`, the cursor (0,0) only if both residues are 0.  The
object is unchanged in either case. -/
theorem fill_cursor_commands (self : mcd8544_MCD8544_obj_t) (color : Int) (dc : Bool) :
    (mcd8544_MCD8544_fill none self color).raised = some Raised.Fault
      ∧ command_bytes dc (mcd8544_MCD8544_fill none self color).trace = []
      ∧ (mcd8544_MCD8544_fill none self color).self = self
      ∧ (∀ v : Int,
          (command_bytes dc (mcd8544_MCD8544_fill (some v) self color).trace).map Fin.val
            = [MCD8544_COL_ADDR ||| (v % 128).toNat, MCD8544_BANK_ADDR ||| (v % 64).toNat]
          ∧ (mcd8544_MCD8544_fill (some v) self color).self = self) := by
  refine ⟨rfl, command_bytes_step (fun _ => 0) none self (Op.fill color) dc, rfl, ?_⟩
  intro v
  refine ⟨?_, rfl⟩
  have hc := command_bytes_step (fun _ => 0) (some v) self (Op.fill color) dc
  simp only [step, labelled_commands, List.map_cons, List.map_nil] at hc
  have hx : int_bits v &&& 0x7F = (v % 128).toNat := int_bits_and_mask v 7 (by decide)
  have hy : int_bits v &&& 0x3F = (v % 64).toNat := int_bits_and_mask v 6 (by decide)
  have lx : (v % 128).toNat < 128 := by omega
  have ly : (v % 64).toNat < 64 := by omega
  obtain ⟨c1, _, _⟩ := col_addr_field ⟨(v % 128).toNat, lx⟩
  obtain ⟨b1, _, _⟩ := bank_addr_field ⟨(v % 64).toNat, ly⟩
  rw [hc, hx, hy]
  simp only [List.map_cons, List.map_nil]
  rw [to_uint8_val_of_lt c1, to_uint8_val_of_lt b1]

/-! ## Controller memory after fill -/

theorem ddram_store_append (a b : List uint8_t) :
    ∀ st, ddram_store st (a ++ b) = ddram_store (ddram_store st a) b := by
  induction a with
  | nil => intro st; rfl
  | cons x a ih => intro st; exact ih (ddram_write st x)

/-- Cells that hold `c` keep it while `c` is stored. -/
theorem ddram_store_keeps (c : uint8_t) (n : Nat) :
    ∀ (st : DDRAM) (i : Fin 504), st.mem i = c →
      (ddram_store st (List.replicate n c)).mem i = c := by
  induction n with
  | zero => intro st i h; exact h
  | succ n ih =>
    intro st i h
    rw [List.replicate_succ]
    apply ih (ddram_write st c) i
    show (if i = st.addr then c else st.mem i) = c
    split_ifs
    · rfl
    · exact h

/-- The `j`-th cell from the address counter holds `c` once more than `j`
bytes `c` are stored. -/
theorem ddram_store_covers (c : uint8_t) (n : Nat) :
    ∀ (st : DDRAM) (j : Nat), j < n →
      (ddram_store st (List.replicate n c)).mem
        ⟨(st.addr.val + j) % 504, Nat.mod_lt _ (by decide)⟩ = c := by
  induction n with
  | zero => intro st j h; omega
  | succ n ih =>
    intro st j h
    rw [List.replicate_succ]
    cases j with
    | zero =>
      apply ddram_store_keeps c n (ddram_write st c)
      show (if _ = st.addr then c else _) = c
      rw [if_pos]
      apply Fin.ext
      show (st.addr.val + 0) % 504 = st.addr.val
      have := st.addr.isLt
      omega
    | succ j =>
      have := ih (ddram_write st c) j (by omega)
      have e : (⟨((ddram_write st c).addr.val + j) % 504, Nat.mod_lt _ (by decide)⟩ : Fin 504)
          = ⟨(st.addr.val + (j + 1)) % 504, Nat.mod_lt _ (by decide)⟩ := by
        apply Fin.ext
        show ((st.addr.val + 1) % 504 + j) % 504 = (st.addr.val + (j + 1)) % 504
        omega
      rw [e] at this
      exact this

/-- Storing at least 504 bytes `c` leaves `c` in every cell. -/
theorem ddram_store_all (c : uint8_t) (n : Nat) (hn : 504 ≤ n) (st : DDRAM) (i : Fin 504) :
    (ddram_store st (List.replicate n c)).mem i = c := by
  have h := ddram_store_covers c n st ((i.val + 504 - st.addr.val) % 504)
    (by have := Nat.mod_lt (i.val + 504 - st.addr.val) (show 0 < 504 by decide); omega)
  have e : (⟨(st.addr.val + (i.val + 504 - st.addr.val) % 504) % 504,
      Nat.mod_lt _ (by decide)⟩ : Fin 504) = i := by
    apply Fin.ext
    show (st.addr.val + (i.val + 504 - st.addr.val) % 504) % 504 = i.val
    have h1 := st.addr.isLt
    have h2 := i.isLt
    omega
  rw [e] at h
  exact h

theorem ddram_store_addr (c : uint8_t) (n : Nat) :
    ∀ st : DDRAM, (ddram_store st (List.replicate n c)).addr.val = (st.addr.val + n) % 504 := by
  induction n with
  | zero =>
    intro st
    have := st.addr.isLt
    show st.addr.val = (st.addr.val + 0) % 504
    omega
  | succ n ih =>
    intro st
    rw [List.replicate_succ]
    show (ddram_store (ddram_write st c) (List.replicate n c)).addr.val = _
    rw [ih]
    show ((st.addr.val + 1) % 504 + n) % 504 = (st.addr.val + (n + 1)) % 504
    omega

theorem ddram_exec_write_data (cmd_addr : Fin 504 → uint8_t → Fin 504)
    (self : mcd8544_MCD8544_obj_t) (buf : List uint8_t) (dc : Bool) (st : DDRAM)
    (rest : List Event) :
    ddram_exec cmd_addr dc st (write_data self buf ++ rest)
      = ddram_exec cmd_addr true (ddram_store st buf) rest := by
  cases hcs : self.cs <;> cases buf <;>
    simp [write_data, CS_LOW, CS_HIGH, DC_HIGH, write_spi, ddram_exec, ddram_store, hcs]

theorem ddram_exec_write_cmd_mem (cmd_addr : Fin 504 → uint8_t → Fin 504)
    (self : mcd8544_MCD8544_obj_t) (cmd : Nat) (dc : Bool) (st : DDRAM) (rest : List Event) :
    ddram_exec cmd_addr dc st (write_cmd self cmd ++ rest)
      = ddram_exec cmd_addr false { st with addr := cmd_addr st.addr (to_uint8 cmd) } rest := by
  cases hcs : self.cs <;>
    simp [write_cmd, CS_LOW, CS_HIGH, DC_LOW, write_spi, ddram_exec, hcs]

theorem ddram_exec_nil (cmd_addr : Fin 504 → uint8_t → Fin 504) (dc : Bool) (st : DDRAM) :
    ddram_exec cmd_addr dc st [] = st := rfl

theorem ddram_exec_position_mem (cmd_addr : Fin 504 → uint8_t → Fin 504)
    (self : mcd8544_MCD8544_obj_t) (x y : Int) (dc : Bool) (st : DDRAM) :
    (ddram_exec cmd_addr dc st (mcd8544_MCD8544_position self x y).trace).mem = st.mem := by
  have h2 := ddram_exec_write_cmd_mem cmd_addr self
    (MCD8544_BANK_ADDR ||| (int_bits y &&& 0x3F)) false
    { st with addr := cmd_addr st.addr (to_uint8 (MCD8544_COL_ADDR ||| (int_bits x &&& 0x7F))) } []
  simp only [List.append_nil] at h2
  simp only [mcd8544_MCD8544_position]
  rw [ddram_exec_write_cmd_mem, h2, ddram_exec_nil]

theorem ddram_exec_fill_loop (cmd_addr : Fin 504 → uint8_t → Fin 504)
    (self : mcd8544_MCD8544_obj_t) (c : uint8_t) (rest : List Event) (n : Nat) :
    ∀ (dc : Bool) (st : DDRAM),
      ddram_exec cmd_addr dc st (fill_loop self (List.replicate 8 c) n ++ rest)
        = ddram_exec cmd_addr (if n = 0 then dc else true)
            (ddram_store st (List.replicate (8 * n) c)) rest := by
  induction n with
  | zero => intro dc st; rfl
  | succ n ih =>
    intro dc st
    rw [fill_loop, List.append_assoc, ddram_exec_write_data, ih true, if_neg (Nat.succ_ne_zero n),
      ← ddram_store_append, List.append_replicate_replicate]
    have e : 8 + 8 * n = 8 * (n + 1) := by omega
    rw [e]
    split_ifs <;> rfl

/-- Claim C13: under the controller model of the claim, for every initial
memory content and address counter, every effect of commands on the address
counter, either fill value and either outcome of the closing cursor call,
the memory after `fill` equals, cell by cell, the memory after one
`write_data` of 504 bytes of the fill value: every cell holds 0xFF when the
argument is positive and 0x00 otherwise. -/
theorem fill_ddram_equiv (cmd_addr : Fin 504 → uint8_t → Fin 504) (null_int : Option Int)
    (self : mcd8544_MCD8544_obj_t) (color : Int) (dc : Bool) (st : DDRAM) (i : Fin 504) :
    (ddram_exec cmd_addr dc st (mcd8544_MCD8544_fill null_int self color).trace).mem i
        = (ddram_exec cmd_addr dc st
            (write_data self (List.replicate 504 (if color > 0 then (255 : uint8_t) else 0)))).mem i
      ∧ (ddram_exec cmd_addr dc st (mcd8544_MCD8544_fill null_int self color).trace).mem i
        = (if color > 0 then (255 : uint8_t) else 0) := by
  have hone : (ddram_exec cmd_addr dc st
      (write_data self (List.replicate 504 (if color > 0 then (255 : uint8_t) else 0)))).mem i
      = (if color > 0 then (255 : uint8_t) else 0) := by
    have := ddram_exec_write_data cmd_addr self
      (List.replicate 504 (if color > 0 then (255 : uint8_t) else 0)) dc st []
    simp only [List.append_nil] at this
    rw [this, ddram_exec_nil]
    exact ddram_store_all _ 504 (Nat.le_refl _) st i
  have hfill : (ddram_exec cmd_addr dc st (mcd8544_MCD8544_fill null_int self color).trace).mem i
      = (if color > 0 then (255 : uint8_t) else 0) := by
    cases null_int with
    | none =>
      have := ddram_exec_fill_loop cmd_addr self (if color > 0 then (255 : uint8_t) else 0) []
        504 dc st
      simp only [List.append_nil] at this
      simp only [mcd8544_MCD8544_fill]
      rw [this, ddram_exec_nil]
      exact ddram_store_all _ (8 * 504) (by decide) st i
    | some v =>
      have := ddram_exec_fill_loop cmd_addr self (if color > 0 then (255 : uint8_t) else 0)
        (mcd8544_MCD8544_position self v v).trace 504 dc st
      simp only [mcd8544_MCD8544_fill]
      rw [this]
      rw [ddram_exec_position_mem]
      exact ddram_store_all _ (8 * 504) (by decide) st i
  exact ⟨hfill.trans hone.symm, hfill⟩

/-! ## Reset -/

/-- Claim C17: for every object, `reset` returns normally, hands no byte to
the transport and leaves the object unchanged.  With a reset pin its trace is
exactly reset high, 500 us, reset low, 500 us, reset high, 100 us, so the line
is low for 500 us, more than 100 ns and less than 100 ms.  Without a reset
pin no pin is written and only the three delays remain. -/
theorem reset_pulse (self : mcd8544_MCD8544_obj_t) (dc : Bool) :
    (mcd8544_MCD8544_reset self).raised = none
      ∧ transport_bytes (mcd8544_MCD8544_reset self).trace = []
      ∧ command_bytes dc (mcd8544_MCD8544_reset self).trace = []
      ∧ data_bytes dc (mcd8544_MCD8544_reset self).trace = []
      ∧ (mcd8544_MCD8544_reset self).self = self
      ∧ (self.reset = true → (mcd8544_MCD8544_reset self).trace
          = [Event.pin_write Line.reset true, Event.delay_us 500,
             Event.pin_write Line.reset false, Event.delay_us 500,
             Event.pin_write Line.reset true, Event.delay_us 100])
      ∧ (self.reset = false → (mcd8544_MCD8544_reset self).trace
          = [Event.delay_us 500, Event.delay_us 500, Event.delay_us 100])
      ∧ 100 < 500 * 1000 ∧ 500 * 1000 < 100 * 1000000 := by
  refine ⟨rfl, ?_, ?_, ?_, rfl, ?_, ?_, by decide, by decide⟩
  · cases hr : self.reset <;>
      simp [mcd8544_MCD8544_reset, RESET_LOW, RESET_HIGH, transport_bytes, hr]
  · have := command_bytes_reset self dc []
    simpa [command_bytes] using this
  · have := data_bytes_reset self dc []
    simpa [data_bytes] using this
  · intro hr
    simp [mcd8544_MCD8544_reset, RESET_LOW, RESET_HIGH, hr]
  · intro hr
    simp [mcd8544_MCD8544_reset, RESET_LOW, RESET_HIGH, hr]

/-- Witness for `reset_pulse`: the default object with and without a reset
pin. -/
theorem reset_pulse_witness :
    (mcd8544_MCD8544_reset { default_obj with reset := true }).trace
        = [Event.pin_write Line.reset true, Event.delay_us 500,
           Event.pin_write Line.reset false, Event.delay_us 500,
           Event.pin_write Line.reset true, Event.delay_us 100]
      ∧ (mcd8544_MCD8544_reset default_obj).trace
        = [Event.delay_us 500, Event.delay_us 500, Event.delay_us 100] :=
  ⟨(reset_pulse { default_obj with reset := true } false).2.2.2.2.2.1 rfl,
   (reset_pulse default_obj false).2.2.2.2.2.2.1 (by decide)⟩

/-! ## Display mode -/

/-- Claim C18: for every object, every boolean argument and every level of
the data/command line before the call, `invert`, `display` and `test` return
normally, send exactly one command byte and no data, and leave the object
unchanged.  `invert` sends DISPLAY_INVERSE for true and DISPLAY_NORMAL for
false; `display`, whose argument says whether the display is to be normal,
sends DISPLAY_BLANK for false and DISPLAY_NORMAL for true; `test` sends
DISPLAY_ALL for true and DISPLAY_NORMAL for false. -/
theorem display_mode_commands (self : mcd8544_MCD8544_obj_t) (b : Bool) (dc : Bool) :
    ((mcd8544_MCD8544_invert self b).raised = none
        ∧ (command_bytes dc (mcd8544_MCD8544_invert self b).trace).map Fin.val
          = [if b then MCD8544_DISPLAY_INVERSE else MCD8544_DISPLAY_NORMAL]
        ∧ data_bytes dc (mcd8544_MCD8544_invert self b).trace = []
        ∧ (mcd8544_MCD8544_invert self b).self = self)
      ∧ ((mcd8544_MCD8544_display self b).raised = none
        ∧ (command_bytes dc (mcd8544_MCD8544_display self b).trace).map Fin.val
          = [if b then MCD8544_DISPLAY_NORMAL else MCD8544_DISPLAY_BLANK]
        ∧ data_bytes dc (mcd8544_MCD8544_display self b).trace = []
        ∧ (mcd8544_MCD8544_display self b).self = self)
      ∧ ((mcd8544_MCD8544_test self b).raised = none
        ∧ (command_bytes dc (mcd8544_MCD8544_test self b).trace).map Fin.val
          = [if b then MCD8544_DISPLAY_ALL else MCD8544_DISPLAY_NORMAL]
        ∧ data_bytes dc (mcd8544_MCD8544_test self b).trace = []
        ∧ (mcd8544_MCD8544_test self b).self = self) := by
  have hc : ∀ c : Nat, command_bytes dc (write_cmd self c) = [to_uint8 c] := by
    intro c
    have := command_bytes_write_cmd self c dc []
    simpa [command_bytes] using this
  have hd : ∀ c : Nat, data_bytes dc (write_cmd self c) = [] := by
    intro c
    have := data_bytes_write_cmd self c dc []
    simpa [data_bytes] using this
  refine ⟨⟨rfl, ?_, ?_, rfl⟩, ⟨rfl, ?_, ?_, rfl⟩, ⟨rfl, ?_, ?_, rfl⟩⟩
  all_goals cases b
  all_goals simp only [mcd8544_MCD8544_invert, mcd8544_MCD8544_display, mcd8544_MCD8544_test,
    Bool.false_eq_true, if_false, if_true, hc, hd, List.map_cons, List.map_nil]
  all_goals rfl

/-! ## Command stream of a sequence of calls -/

theorem command_bytes_append (a b : List Event) (dc : Bool) :
    command_bytes dc (a ++ b) = command_bytes dc a ++ command_bytes (dc_after dc a) b := by
  rw [command_bytes_eq_transfers, command_bytes_eq_transfers, command_bytes_eq_transfers,
    transfers_append]
  simp

theorem command_bytes_run (font : Nat → uint8_t) (null_int : Option Int) (ops : List Op) :
    ∀ (self : mcd8544_MCD8544_obj_t) (dc : Bool),
      command_bytes dc (run font null_int self ops).2
        = (labelled_run font null_int self ops).map Prod.snd := by
  induction ops with
  | nil => intro self dc; rfl
  | cons op ops ih =>
    intro self dc
    simp only [run, labelled_run, List.map_append]
    rw [command_bytes_append, command_bytes_step, ih]

theorem make_new_eq (alloc : mcd8544_MCD8544_obj_t) (cs reset : Bool)
    (horizontal vop bias temp : Int) :
    mcd8544_MCD8544_make_new alloc cs reset horizontal vop bias temp
      = { mcd8544_MCD8544_init_internal (make_new_prepared alloc cs reset)
            (to_int horizontal) (to_int vop) (to_int bias) (to_int temp) with
          trace := [Event.pin_output Line.dc, Event.pin_write Line.dc false]
            ++ (if cs then [Event.pin_output Line.cs, Event.pin_write Line.cs true] else [])
            ++ (if reset then [Event.pin_output Line.reset, Event.pin_write Line.reset true]
                else [])
            ++ (mcd8544_MCD8544_init_internal (make_new_prepared alloc cs reset)
                (to_int horizontal) (to_int vop) (to_int bias) (to_int temp)).trace } := by
  cases alloc
  cases cs <;> cases reset <;> rfl

theorem make_new_raised (alloc : mcd8544_MCD8544_obj_t) (cs reset : Bool)
    (horizontal vop bias temp : Int) :
    (mcd8544_MCD8544_make_new alloc cs reset horizontal vop bias temp).raised = none
      ↔ init_valid (to_int vop) (to_int bias) (to_int temp) := by
  rw [make_new_eq]
  exact init_internal_raised_none_iff _ _ _ _ _

theorem make_new_self (alloc : mcd8544_MCD8544_obj_t) (cs reset : Bool)
    (horizontal vop bias temp : Int) (h : init_valid (to_int vop) (to_int bias) (to_int temp)) :
    (mcd8544_MCD8544_make_new alloc cs reset horizontal vop bias temp).self
      = (init_sequence
          (init_stores (make_new_prepared alloc cs reset) (to_int horizontal) (to_int vop) (to_int bias) (to_int temp))).self := by
  rw [make_new_eq]
  show (mcd8544_MCD8544_init_internal _ _ _ _ _).self = _
  rw [init_internal_of_init_valid _ _ _ _ _ h]

theorem make_new_command_bytes (alloc : mcd8544_MCD8544_obj_t) (cs reset : Bool)
    (horizontal vop bias temp : Int) (h : init_valid (to_int vop) (to_int bias) (to_int temp)) (dc : Bool)
    (rest : List Event) :
    command_bytes dc
        ((mcd8544_MCD8544_make_new alloc cs reset horizontal vop bias temp).trace ++ rest)
      = (labelled_init_sequence
          (init_stores (make_new_prepared alloc cs reset) (to_int horizontal) (to_int vop) (to_int bias) (to_int temp))).map Prod.snd
        ++ command_bytes false rest := by
  have hi := command_bytes_step (fun _ => 0) none (make_new_prepared alloc cs reset)
    (Op.init horizontal vop bias temp)
  simp only [step, mcd8544_MCD8544_init, labelled_commands, if_pos h] at hi
  have hd : ∀ dc, dc_after dc (mcd8544_MCD8544_init_internal (make_new_prepared alloc cs reset)
      (to_int horizontal) (to_int vop) (to_int bias) (to_int temp)).trace = false := by
    intro dc
    rw [init_internal_of_init_valid _ _ _ _ _ h]
    cases hcs : (init_stores (make_new_prepared alloc cs reset) (to_int horizontal) (to_int vop) (to_int bias) (to_int temp)).cs <;>
      cases hr : (init_stores (make_new_prepared alloc cs reset) (to_int horizontal) (to_int vop) (to_int bias) (to_int temp)).reset <;>
      simp [init_sequence, mcd8544_MCD8544_reset, RESET_HIGH, RESET_LOW, write_cmd, CS_LOW,
        CS_HIGH, DC_LOW, write_spi, dc_after, hcs, hr]
  have hpins : ∀ tr : List Event,
      command_bytes dc ([Event.pin_output Line.dc, Event.pin_write Line.dc false]
        ++ ((if cs then [Event.pin_output Line.cs, Event.pin_write Line.cs true] else [])
        ++ ((if reset then [Event.pin_output Line.reset, Event.pin_write Line.reset true]
            else []) ++ tr))) = command_bytes false tr := by
    intro tr
    cases cs <;> cases reset <;> rfl
  rw [make_new_eq]
  simp only [List.append_assoc]
  rw [hpins, command_bytes_append, hi, hd]

/-! ## The function register and the last function-set command -/

set_option maxRecDepth 100000 in
theorem col_addr_not_function_set : ∀ c : Fin 128,
    is_function_set (to_uint8 (MCD8544_COL_ADDR ||| c.val)) = false := by
  decide

set_option maxRecDepth 100000 in
theorem bank_addr_not_function_set : ∀ c : Fin 64,
    is_function_set (to_uint8 (MCD8544_BANK_ADDR ||| c.val)) = false := by
  decide

theorem position_not_function_set (x y : Int) :
    [to_uint8 (MCD8544_COL_ADDR ||| (int_bits x &&& 0x7F)),
      to_uint8 (MCD8544_BANK_ADDR ||| (int_bits y &&& 0x3F))].filter is_function_set = [] := by
  have hx : int_bits x &&& 0x7F < 128 := Nat.and_lt_two_pow _ (n := 7) (by decide)
  have hy : int_bits y &&& 0x3F < 64 := Nat.and_lt_two_pow _ (n := 6) (by decide)
  have h1 := col_addr_not_function_set ⟨_, hx⟩
  have h2 := bank_addr_not_function_set ⟨_, hy⟩
  simp only at h1 h2
  simp [List.filter, h1, h2]

theorem fn_shape_is_function_set (fn : uint8_t) (h : fn_shape fn) : is_function_set fn = true := by
  simp [is_function_set, (fn_shape_bits fn h).2]

theorem init_internal_fn_of_not_valid (self : mcd8544_MCD8544_obj_t)
    (horizontal vop bias temp : Int) (h : ¬ init_valid vop bias temp) :
    (mcd8544_MCD8544_init_internal self horizontal vop bias temp).self.fn
      = (set_addressing self horizontal).fn := by
  by_cases hv : vop ≠ -1 ∧ (vop < 0 ∨ vop > 127)
  · rw [init_internal_vop_raise _ _ _ _ _ hv]
  · by_cases hb : bias ≠ -1 ∧ (bias < 0 ∨ bias > 7)
    · rw [init_internal_bias_raise _ _ _ _ _ hv hb]
      show (if vop ≠ -1 then _ else _ : mcd8544_MCD8544_obj_t).fn = _
      split_ifs <;> rfl
    · by_cases ht : temp ≠ -1 ∧ (temp < 0 ∨ temp > 3)
      · rw [(init_internal_temp_raise _ _ _ _ _ hv hb ht).2.2]
      · exact absurd ⟨hv, hb, ht⟩ h

/-- Of the seven commands of `init_internal` the last function-set byte is
the sixth, the function register as stored. -/
theorem init_sequence_last_function_set (s : mcd8544_MCD8544_obj_t)
    (hsh : fn_shape (init_sequence s).self.fn) :
    (((labelled_init_sequence s).map Prod.snd).filter is_function_set).getLast?
      = some (init_sequence s).self.fn := by
  have hp := fn_shape_is_function_set _ hsh
  have e6 : to_uint8 (to_uint8 (s.fn.val &&& int_not MCD8544_POWER_DOWN)).val
      = (init_sequence s).self.fn := by
    apply Fin.ext
    exact to_uint8_val_of_lt (Fin.isLt _)
  have h67 : [to_uint8 (to_uint8 (s.fn.val &&& int_not MCD8544_POWER_DOWN)).val,
      to_uint8 MCD8544_DISPLAY_NORMAL].filter is_function_set = [(init_sequence s).self.fn] := by
    rw [e6]
    have h7 : is_function_set (to_uint8 MCD8544_DISPLAY_NORMAL) = false := by decide
    simp [List.filter, hp, h7]
  have split : (labelled_init_sequence s).map Prod.snd
      = [to_uint8 (s.fn.val ||| MCD8544_EXTENDED_INSTR),
          to_uint8 (MCD8544_TEMP_COEFF ||| s.temp.val),
          to_uint8 (MCD8544_BIAS ||| s.bias.val),
          to_uint8 (MCD8544_VOP ||| s.vop.val),
          to_uint8 (s.fn.val &&& int_not MCD8544_EXTENDED_INSTR)]
        ++ [to_uint8 (to_uint8 (s.fn.val &&& int_not MCD8544_POWER_DOWN)).val,
            to_uint8 MCD8544_DISPLAY_NORMAL] := rfl
  rw [split, List.filter_append, h67, List.getLast?_append]
  rfl

/-- The last function-set byte of a command stream that a method call
extends is the function register after the call, if it was so before and the
call is `mirror_safe`. -/
theorem mirror_step (font : Nat → uint8_t) (null_int : Option Int)
    (self : mcd8544_MCD8544_obj_t) (op : Op) (cmds : List uint8_t)
    (hs : fn_shape self.fn) (hsafe : mirror_safe self op = true)
    (hinv : (cmds.filter is_function_set).getLast? = some self.fn) :
    ((cmds ++ (labelled_commands null_int self op).map Prod.snd).filter
        is_function_set).getLast? = some (step font null_int self op).self.fn := by
  have keep : ∀ l : List uint8_t, l.filter is_function_set = [] →
      ((cmds ++ l).filter is_function_set).getLast? = some self.fn := by
    intro l hl
    rw [List.filter_append, hl, List.append_nil, hinv]
  have last : ∀ (l : List uint8_t) (f : uint8_t),
      (l.filter is_function_set).getLast? = some f →
      ((cmds ++ l).filter is_function_set).getLast? = some f := by
    intro l f hl
    rw [List.filter_append, List.getLast?_append, hl]
    rfl
  cases op with
  | init horizontal vop bias temp =>
    simp only [step, mcd8544_MCD8544_init, labelled_commands, mirror_safe] at hsafe ⊢
    generalize to_int horizontal = horizontal at hsafe ⊢
    generalize to_int vop = vop at hsafe ⊢
    generalize to_int bias = bias at hsafe ⊢
    generalize to_int temp = temp at hsafe ⊢
    by_cases hvalid : init_valid vop bias temp
    · have hsh := init_internal_fn_shape self horizontal vop bias temp hs
      rw [init_internal_of_init_valid _ _ _ _ _ hvalid] at hsh
      have hp := fn_shape_is_function_set _ hsh
      rw [if_pos hvalid, init_internal_of_init_valid _ _ _ _ _ hvalid]
      exact last _ _ (init_sequence_last_function_set _ hsh)
    · have hfn : (set_addressing self horizontal).fn = self.fn := by
        simpa [hvalid] using hsafe
      rw [if_neg hvalid, init_internal_fn_of_not_valid _ _ _ _ _ hvalid, hfn]
      exact keep [] rfl
  | reset => exact keep [] rfl
  | power on_ =>
    have hsh := step_fn_shape font null_int self (Op.power on_) hs
    have hp := fn_shape_is_function_set _ hsh
    simp only [step] at hsh hp ⊢
    apply last
    simp [labelled_commands, List.filter, hp]
  | invert b =>
    apply keep
    cases b <;> rfl
  | display b =>
    apply keep
    cases b <;> rfl
  | test b =>
    apply keep
    cases b <;> rfl
  | position x y => exact keep _ (position_not_function_set x y)
  | fill color =>
    rw [show (step font null_int self (Op.fill color)).self = self from
      fill_self null_int self color]
    cases null_int with
    | none => exact keep [] rfl
    | some v => exact keep _ (position_not_function_set v v)
  | text str => exact keep [] rfl
  | command c => simp [mirror_safe] at hsafe
  | data d => exact keep [] rfl

theorem mirror_run (font : Nat → uint8_t) (null_int : Option Int) (ops : List Op) :
    ∀ (self : mcd8544_MCD8544_obj_t) (cmds : List uint8_t), fn_shape self.fn →
      run_mirror_safe font null_int self ops = true →
      (cmds.filter is_function_set).getLast? = some self.fn →
      ((cmds ++ (labelled_run font null_int self ops).map Prod.snd).filter
          is_function_set).getLast? = some (run font null_int self ops).1.fn := by
  induction ops with
  | nil =>
    intro self cmds _ _ hinv
    simpa [labelled_run, run] using hinv
  | cons op ops ih =>
    intro self cmds hs hsafe hinv
    simp only [run_mirror_safe, Bool.and_eq_true] at hsafe
    have h1 := mirror_step font null_int self op cmds hs hsafe.1 hinv
    have h2 := ih (step font null_int self op).self _ (step_fn_shape font null_int self op hs)
      hsafe.2 h1
    simp only [labelled_run, run, List.map_append]
    rw [← List.append_assoc]
    exact h2

theorem make_new_fn_shape (alloc : mcd8544_MCD8544_obj_t) (cs reset : Bool)
    (horizontal vop bias temp : Int) :
    fn_shape (mcd8544_MCD8544_make_new alloc cs reset horizontal vop bias temp).self.fn := by
  rw [make_new_eq]
  exact init_internal_fn_shape _ (to_int horizontal) (to_int vop) (to_int bias) (to_int temp) (by
    show fn_shape (to_uint8 (MCD8544_FUNCTION_SET ||| MCD8544_POWER_DOWN))
    decide)

/-- After a failed `init` that asked for vertical addressing the function
register is 0x22, while the last function-set command sent, by the
constructor, is 0x20. -/
theorem failed_init_breaks_mirror :
    (mcd8544_MCD8544_make_new zero_obj false false 1 63 3 2).raised = none
      ∧ (mcd8544_MCD8544_init
          (mcd8544_MCD8544_make_new zero_obj false false 1 63 3 2).self 0 128 (-1) (-1)).raised
        = some (Raised.ValueError Param.vop)
      ∧ last_function_set false
          ((mcd8544_MCD8544_make_new zero_obj false false 1 63 3 2).trace
            ++ (run (fun _ => 0) none (mcd8544_MCD8544_make_new zero_obj false false 1 63 3 2).self
                [Op.init 0 128 (-1) (-1)]).2) = some 0x20
      ∧ (run (fun _ => 0) none (mcd8544_MCD8544_make_new zero_obj false false 1 63 3 2).self
          [Op.init 0 128 (-1) (-1)]).1.fn = 0x22 := by
  decide

/-- Claim C14, amended: after a completed constructor and any sequence of
method calls other than the raw command, in which every `init` either passes
its checks or leaves the addressing bit of `fn` as it was, the function
register equals the last function-set command byte (pattern 0b00100xxx) sent
to the controller.  The statement holds for every such sequence, hence at
every point between calls. -/
theorem mirror_invariant (font : Nat → uint8_t) (null_int : Option Int)
    (alloc : mcd8544_MCD8544_obj_t) (cs reset : Bool) (horizontal vop bias temp : Int)
    (ops : List Op) (dc : Bool)
    (hnew : (mcd8544_MCD8544_make_new alloc cs reset horizontal vop bias temp).raised = none)
    (hsafe : run_mirror_safe font null_int
      (mcd8544_MCD8544_make_new alloc cs reset horizontal vop bias temp).self ops = true) :
    last_function_set dc
        ((mcd8544_MCD8544_make_new alloc cs reset horizontal vop bias temp).trace
          ++ (run font null_int
              (mcd8544_MCD8544_make_new alloc cs reset horizontal vop bias temp).self ops).2)
      = some (run font null_int
          (mcd8544_MCD8544_make_new alloc cs reset horizontal vop bias temp).self ops).1.fn := by
  have hvalid := (make_new_raised alloc cs reset horizontal vop bias temp).1 hnew
  have hsh := make_new_fn_shape alloc cs reset horizontal vop bias temp
  have hself := make_new_self alloc cs reset horizontal vop bias temp hvalid
  unfold last_function_set
  rw [make_new_command_bytes _ _ _ _ _ _ _ hvalid, command_bytes_run]
  apply mirror_run font null_int ops _ _ hsh hsafe
  rw [hself] at hsh ⊢
  exact init_sequence_last_function_set _ hsh

/-- Witness for `mirror_invariant`: default constructor, then power off, a
failed `init` without addressing argument, a fill, a cursor move, power on and
a successful `init` to vertical addressing. -/
theorem mirror_invariant_witness :
    last_function_set false
        ((mcd8544_MCD8544_make_new zero_obj true true 1 63 3 2).trace
          ++ (run (fun _ => 0) (some 0)
              (mcd8544_MCD8544_make_new zero_obj true true 1 63 3 2).self
              [Op.power false, Op.init (-1) 128 (-1) (-1), Op.fill 1, Op.position 3 2,
               Op.power true, Op.init 0 70 (-1) (-1)]).2)
      = some (run (fun _ => 0) (some 0)
          (mcd8544_MCD8544_make_new zero_obj true true 1 63 3 2).self
          [Op.power false, Op.init (-1) 128 (-1) (-1), Op.fill 1, Op.position 3 2,
           Op.power true, Op.init 0 70 (-1) (-1)]).1.fn :=
  mirror_invariant (fun _ => 0) (some 0) zero_obj true true 1 63 3 2
    [Op.power false, Op.init (-1) 128 (-1) (-1), Op.fill 1, Op.position 3 2,
     Op.power true, Op.init 0 70 (-1) (-1)] false (by decide) (by decide)

/-! ## Instruction-set discipline -/

theorem discipline_append (a b : List (Kind × uint8_t)) :
    ∀ ext, discipline ext (a ++ b)
      = match discipline ext a with
        | some e => discipline e b
        | none => none := by
  induction a with
  | nil => intro ext; rfl
  | cons c a ih =>
    intro ext
    simp only [List.cons_append, discipline]
    cases discipline_step ext c with
    | none => rfl
    | some e => exact ih e

set_option maxRecDepth 100000 in
theorem enter_extended_bit : ∀ fn : uint8_t,
    (to_uint8 (fn.val ||| MCD8544_EXTENDED_INSTR)).val.testBit 0 = true := by
  decide

set_option maxRecDepth 100000 in
theorem exit_extended_bit : ∀ fn : uint8_t,
    (to_uint8 (fn.val &&& int_not MCD8544_EXTENDED_INSTR)).val.testBit 0 = false := by
  decide

/-- The seven commands of `init_internal` keep the discipline from either
instruction set and end in the basic set, when the stored function register
has its extended bit clear. -/
theorem discipline_init_sequence (s : mcd8544_MCD8544_obj_t)
    (hsh : fn_shape (init_sequence s).self.fn) (ext : Bool) :
    discipline ext (labelled_init_sequence s) = some false := by
  have h6 : (to_uint8 (to_uint8 (s.fn.val &&& int_not MCD8544_POWER_DOWN)).val).val.testBit 0
      = false := by
    have e6 : to_uint8 (to_uint8 (s.fn.val &&& int_not MCD8544_POWER_DOWN)).val
        = (init_sequence s).self.fn := by
      apply Fin.ext
      exact to_uint8_val_of_lt (Fin.isLt _)
    rw [e6]
    exact (fn_shape_bits _ hsh).1
  simp only [labelled_init_sequence, discipline, discipline_step, enter_extended_bit,
    exit_extended_bit, h6, if_true, Bool.false_eq_true, if_false]

/-- A method call other than the raw command, made with the basic set active
on an object whose function register has the extended bit clear, keeps the
discipline and returns with the basic set active. -/
theorem discipline_step_op (font : Nat → uint8_t) (null_int : Option Int)
    (self : mcd8544_MCD8544_obj_t) (op : Op) (hs : fn_shape self.fn)
    (hop : not_raw_command op = true) :
    discipline false (labelled_commands null_int self op) = some false := by
  cases op with
  | init horizontal vop bias temp =>
    simp only [labelled_commands]
    generalize to_int horizontal = horizontal
    generalize to_int vop = vop
    generalize to_int bias = bias
    generalize to_int temp = temp
    by_cases hvalid : init_valid vop bias temp
    · have hsh := init_internal_fn_shape self horizontal vop bias temp hs
      rw [init_internal_of_init_valid _ _ _ _ _ hvalid] at hsh
      rw [if_pos hvalid]
      exact discipline_init_sequence _ hsh false
    · rw [if_neg hvalid]
      rfl
  | reset => rfl
  | power on_ =>
    have hsh := step_fn_shape font null_int self (Op.power on_) hs
    simp only [step] at hsh
    simp only [labelled_commands, discipline, discipline_step, (fn_shape_bits _ hsh).1]
  | invert b => rfl
  | display b => rfl
  | test b => rfl
  | position x y => rfl
  | fill color => cases null_int <;> rfl
  | text str => rfl
  | command c => simp [not_raw_command] at hop
  | data d => rfl

theorem discipline_run (font : Nat → uint8_t) (null_int : Option Int) (ops : List Op) :
    ∀ self : mcd8544_MCD8544_obj_t, fn_shape self.fn →
      ops.all not_raw_command = true →
      discipline false (labelled_run font null_int self ops) = some false := by
  induction ops with
  | nil => intro self _ _; rfl
  | cons op ops ih =>
    intro self hs hops
    simp only [List.all_cons, Bool.and_eq_true] at hops
    simp only [labelled_run]
    rw [discipline_append, discipline_step_op font null_int self op hs hops.1]
    exact ih _ (step_fn_shape font null_int self op hs) hops.2

/-- Claim C15: for a completed constructor followed by any sequence of method
calls other than the raw command, the command bytes sent are, in order, the
bytes of the `write_cmd` calls labelled with their opcode; read with the
active instruction set taken from bit 0 of the most recent function-set
command, and whatever set was active before the constructor, every
temperature, bias and contrast command comes under the extended set, every
column-address, bank-address and display-mode command under the basic set,
and the basic set is active at the end.  The statement holds for every such
sequence, hence whenever a call returns. -/
theorem instruction_set_discipline (font : Nat → uint8_t) (null_int : Option Int)
    (alloc : mcd8544_MCD8544_obj_t) (cs reset : Bool) (horizontal vop bias temp : Int)
    (ops : List Op) (dc ext : Bool)
    (hnew : (mcd8544_MCD8544_make_new alloc cs reset horizontal vop bias temp).raised = none)
    (hops : ops.all not_raw_command = true) :
    command_bytes dc
        ((mcd8544_MCD8544_make_new alloc cs reset horizontal vop bias temp).trace
          ++ (run font null_int
              (mcd8544_MCD8544_make_new alloc cs reset horizontal vop bias temp).self ops).2)
        = (labelled_init_sequence
              (init_stores (make_new_prepared alloc cs reset) (to_int horizontal) (to_int vop)
                (to_int bias) (to_int temp))
            ++ labelled_run font null_int
              (mcd8544_MCD8544_make_new alloc cs reset horizontal vop bias temp).self ops).map
            Prod.snd
      ∧ discipline ext
          (labelled_init_sequence
              (init_stores (make_new_prepared alloc cs reset) (to_int horizontal) (to_int vop)
                (to_int bias) (to_int temp))
            ++ labelled_run font null_int
              (mcd8544_MCD8544_make_new alloc cs reset horizontal vop bias temp).self ops)
        = some false := by
  have hvalid := (make_new_raised alloc cs reset horizontal vop bias temp).1 hnew
  have hsh := make_new_fn_shape alloc cs reset horizontal vop bias temp
  have hself := make_new_self alloc cs reset horizontal vop bias temp hvalid
  constructor
  · rw [make_new_command_bytes _ _ _ _ _ _ _ hvalid, command_bytes_run, List.map_append]
  · rw [discipline_append, discipline_init_sequence _ (hself ▸ hsh) ext]
    exact discipline_run font null_int ops _ hsh hops

/-- Witness for `instruction_set_discipline`: default constructor with both
optional pins, then a cursor move, a re-initialisation, an inversion, a power
cycle and a text. -/
theorem instruction_set_discipline_witness :
    command_bytes false
        ((mcd8544_MCD8544_make_new zero_obj true true 1 63 3 2).trace
          ++ (run (fun _ => 0) (some 0) (mcd8544_MCD8544_make_new zero_obj true true 1 63 3 2).self
              [Op.position 3 2, Op.init 0 70 (-1) (-1), Op.invert true, Op.power false,
               Op.power true, Op.text [0x41]]).2)
        = (labelled_init_sequence (init_stores (make_new_prepared zero_obj true true) (to_int 1) (to_int 63)
              (to_int 3) (to_int 2))
            ++ labelled_run (fun _ => 0) (some 0)
              (mcd8544_MCD8544_make_new zero_obj true true 1 63 3 2).self
              [Op.position 3 2, Op.init 0 70 (-1) (-1), Op.invert true, Op.power false,
               Op.power true, Op.text [0x41]]).map Prod.snd
      ∧ discipline true
          (labelled_init_sequence (init_stores (make_new_prepared zero_obj true true) (to_int 1) (to_int 63)
              (to_int 3) (to_int 2))
            ++ labelled_run (fun _ => 0) (some 0)
              (mcd8544_MCD8544_make_new zero_obj true true 1 63 3 2).self
              [Op.position 3 2, Op.init 0 70 (-1) (-1), Op.invert true, Op.power false,
               Op.power true, Op.text [0x41]])
        = some false :=
  instruction_set_discipline (fun _ => 0) (some 0) zero_obj true true 1 63 3 2
    [Op.position 3 2, Op.init 0 70 (-1) (-1), Op.invert true, Op.power false,
     Op.power true, Op.text [0x41]] false true (by decide) (by decide)

/-! ## Transfer bracketing -/

theorem bracket_run_none (cs : Bool) (tr : List Event) : bracket_run cs none tr = none := by
  cases tr <;> rfl

theorem bracket_run_append (cs : Bool) (a b : List Event) :
    ∀ st, bracket_run cs st (a ++ b) = bracket_run cs (bracket_run cs st a) b := by
  induction a with
  | nil => intro st; simp [bracket_run]
  | cons e a ih =>
    intro st
    cases st with
    | none => simp [bracket_run, bracket_run_none]
    | some s => exact ih _

theorem bracket_write_cmd (self : mcd8544_MCD8544_obj_t) (cmd : Nat) :
    bracket_run self.cs (some Bracket.idle) (write_cmd self cmd) = some Bracket.idle := by
  cases hcs : self.cs <;> simp [write_cmd, CS_LOW, CS_HIGH, DC_LOW, write_spi, hcs] <;> rfl

theorem bracket_write_data (self : mcd8544_MCD8544_obj_t) (buf : List uint8_t)
    (h : buf.length > 0) :
    bracket_run self.cs (some Bracket.idle) (write_data self buf) = some Bracket.idle := by
  cases hcs : self.cs <;> simp [write_data, CS_LOW, CS_HIGH, DC_HIGH, write_spi, hcs, h] <;> rfl

theorem bracket_reset (self : mcd8544_MCD8544_obj_t) :
    bracket_run self.cs (some Bracket.idle) (mcd8544_MCD8544_reset self).trace
      = some Bracket.idle := by
  cases hcs : self.cs <;> cases hr : self.reset <;>
    simp [mcd8544_MCD8544_reset, RESET_HIGH, RESET_LOW, hr] <;> rfl

theorem bracket_fill_loop (self : mcd8544_MCD8544_obj_t) (buf : List uint8_t)
    (h : buf.length > 0) (n : Nat) :
    bracket_run self.cs (some Bracket.idle) (fill_loop self buf n) = some Bracket.idle := by
  induction n with
  | zero => rfl
  | succ n ih => rw [fill_loop, bracket_run_append, bracket_write_data self buf h, ih]

theorem bracket_text_loop (self : mcd8544_MCD8544_obj_t) (font : Nat → uint8_t)
    (str : List uint8_t) :
    bracket_run self.cs (some Bracket.idle) (mcd8544_MCD8544_text_loop self font str)
      = some Bracket.idle := by
  induction str with
  | nil => rfl
  | cons b str ih =>
    by_cases hb : b.val = 0
    · simp [mcd8544_MCD8544_text_loop, hb, bracket_run]
    · simp only [mcd8544_MCD8544_text_loop, hb, if_false]
      rw [bracket_run_append, bracket_write_data self _ (by simp), ih]

theorem bracket_init_sequence (self : mcd8544_MCD8544_obj_t) :
    bracket_run self.cs (some Bracket.idle) (init_sequence self).trace = some Bracket.idle := by
  have h6 := bracket_write_cmd
    { self with fn := to_uint8 (self.fn.val &&& int_not MCD8544_POWER_DOWN) }
  simp only at h6
  simp only [init_sequence, bracket_run_append, bracket_reset, bracket_write_cmd, h6]

/-- Claim C16: for every method call on every object, the event trace keeps
the bracket discipline: with a chip-select pin, every bus transfer comes
immediately after chip-select low and one write of the data/command line and
immediately before chip-select high, no bracket holds two transfers and the
data/command line is not written after the transfer; the transfers are
exactly the data buffers of the call, each sent with the line high, followed
by its command bytes, each a transfer of its own with the line low.  The
seven commands of `init` and the two of `position` are seven and two
brackets, each chunk of `fill` and each glyph of `text` is one. -/
theorem transfer_bracketing (font : Nat → uint8_t) (null_int : Option Int)
    (self : mcd8544_MCD8544_obj_t) (op : Op) (dc : Bool) :
    bracket_ok self.cs (step font null_int self op).trace = true
      ∧ transfers dc (step font null_int self op).trace
          = (data_part font op).map (fun buf => (true, buf))
            ++ (labelled_commands null_int self op).map (fun p => (false, [p.2])) := by
  refine ⟨?_, transfers_step font null_int self op dc⟩
  have ok : ∀ tr, bracket_run self.cs (some Bracket.idle) tr = some Bracket.idle →
      bracket_ok self.cs tr = true := by
    intro tr h
    simp [bracket_ok, h]
  cases op with
  | init horizontal vop bias temp =>
    simp only [step, mcd8544_MCD8544_init]
    generalize to_int horizontal = horizontal
    generalize to_int vop = vop
    generalize to_int bias = bias
    generalize to_int temp = temp
    by_cases hvalid : init_valid vop bias temp
    · apply ok
      rw [init_internal_of_init_valid _ _ _ _ _ hvalid]
      exact bracket_init_sequence (init_stores self horizontal vop bias temp)
    · apply ok
      rw [init_internal_trace_of_not_valid _ _ _ _ _ hvalid]
      rfl
  | reset => exact ok _ (bracket_reset self)
  | power on_ =>
    apply ok
    cases on_
    · exact bracket_write_cmd { self with fn := to_uint8 (self.fn.val ||| MCD8544_POWER_DOWN) } _
    · exact bracket_write_cmd
        { self with fn := to_uint8 (self.fn.val &&& int_not MCD8544_POWER_DOWN) } _
  | invert b =>
    apply ok
    cases b <;> exact bracket_write_cmd self _
  | display b =>
    apply ok
    cases b <;> exact bracket_write_cmd self _
  | test b =>
    apply ok
    cases b <;> exact bracket_write_cmd self _
  | position x y =>
    apply ok
    simp only [step, mcd8544_MCD8544_position, bracket_run_append, bracket_write_cmd]
  | fill color =>
    apply ok
    cases null_int with
    | none =>
      simp only [step, mcd8544_MCD8544_fill]
      exact bracket_fill_loop self _ (by simp) 504
    | some v =>
      simp only [step, mcd8544_MCD8544_fill, mcd8544_MCD8544_position, bracket_run_append]
      rw [bracket_fill_loop self _ (by simp) 504]
      simp only [bracket_write_cmd]
  | text str => exact ok _ (bracket_text_loop self font str)
  | command c => exact ok _ (bracket_write_cmd self _)
  | data d =>
    cases hcs : self.cs <;> cases d <;>
      simp [step, mcd8544_MCD8544_data, write_data, CS_LOW, CS_HIGH, DC_HIGH, write_spi, hcs,
        bracket_ok, bracket_run, bracket_step]

/-! ## Shape of the function register -/

set_option maxRecDepth 100000 in
theorem fn_shape_function_set_bytes : ∀ fn : uint8_t, fn_shape fn →
    fn.val.testBit 5 = true ∧ fn.val.testBit 0 = false ∧ 0x20 ≤ fn.val ∧ fn.val ≤ 0x27
      ∧ (0x20 ≤ (fn.val ||| MCD8544_EXTENDED_INSTR) ∧ (fn.val ||| MCD8544_EXTENDED_INSTR) ≤ 0x27
        ∧ (fn.val ||| MCD8544_EXTENDED_INSTR).testBit 0 = true)
      ∧ (0x20 ≤ (fn.val &&& int_not MCD8544_EXTENDED_INSTR)
        ∧ (fn.val &&& int_not MCD8544_EXTENDED_INSTR) ≤ 0x27
        ∧ (fn.val &&& int_not MCD8544_EXTENDED_INSTR).testBit 0 = false)
      ∧ (0x20 ≤ (fn.val &&& int_not MCD8544_POWER_DOWN)
        ∧ (fn.val &&& int_not MCD8544_POWER_DOWN) ≤ 0x27
        ∧ (fn.val &&& int_not MCD8544_POWER_DOWN).testBit 0 = false) := by
  decide

theorem init_command_values (self : mcd8544_MCD8544_obj_t) (horizontal vop bias temp : Int)
    (dc : Bool) (hvalid : init_valid vop bias temp) :
    (command_bytes dc
        (mcd8544_MCD8544_init_internal self horizontal vop bias temp).trace).map Fin.val
      = [(set_addressing self horizontal).fn.val ||| MCD8544_EXTENDED_INSTR,
         (MCD8544_TEMP_COEFF ||| (init_stores self horizontal vop bias temp).temp.val) % 256,
         (MCD8544_BIAS ||| (init_stores self horizontal vop bias temp).bias.val) % 256,
         (MCD8544_VOP ||| (init_stores self horizontal vop bias temp).vop.val) % 256,
         (set_addressing self horizontal).fn.val &&& int_not MCD8544_EXTENDED_INSTR,
         (set_addressing self horizontal).fn.val &&& int_not MCD8544_POWER_DOWN,
         MCD8544_DISPLAY_NORMAL] := by
  have hfn := (init_stores self horizontal vop bias temp).fn.isLt
  rw [init_internal_of_init_valid _ _ _ _ _ hvalid, init_sequence_command_bytes]
  simp only [List.map_cons, List.map_nil]
  rw [to_uint8_val_of_lt (or_byte_lt hfn (by decide)),
    to_uint8_val_of_lt (and_byte_lt _ hfn),
    to_uint8_val_of_lt (and_byte_lt _ hfn),
    to_uint8_val_of_lt (and_byte_lt _ hfn),
    to_uint8_val_of_lt (show MCD8544_DISPLAY_NORMAL < 256 by decide)]
  rfl

/-- Claim C19: on every object reachable from a completed constructor by
method calls, completed or raised, the function register is one of 0x20,
0x22, 0x24, 0x26: function-set opcode bit set, extended bit clear.  The byte
`power` sends lies in 0x20..0x27 with the extended bit clear; of the commands
of a completed `init`, the first, fifth and sixth, the function-set commands,
lie in 0x20..0x27 and only the first, the enter-extended command, has the
extended bit set; the register stored afterwards has it clear. -/
theorem function_register_shape (self : mcd8544_MCD8544_obj_t) (hreach : Reachable self) :
    (self.fn.val = 0x20 ∨ self.fn.val = 0x22 ∨ self.fn.val = 0x24 ∨ self.fn.val = 0x26)
      ∧ self.fn.val.testBit 5 = true ∧ self.fn.val.testBit 0 = false
      ∧ (∀ (on_ dc : Bool),
          command_bytes dc (mcd8544_MCD8544_power self on_).trace
            = [(mcd8544_MCD8544_power self on_).self.fn]
          ∧ 0x20 ≤ (mcd8544_MCD8544_power self on_).self.fn.val
          ∧ (mcd8544_MCD8544_power self on_).self.fn.val ≤ 0x27
          ∧ (mcd8544_MCD8544_power self on_).self.fn.val.testBit 0 = false)
      ∧ (∀ (horizontal vop bias temp : Int) (dc : Bool),
          (mcd8544_MCD8544_init self horizontal vop bias temp).raised = none →
          ((command_bytes dc
              (mcd8544_MCD8544_init self horizontal vop bias temp).trace).map Fin.val)[0]?
            = some ((set_addressing self (to_int horizontal)).fn.val ||| MCD8544_EXTENDED_INSTR)
          ∧ ((command_bytes dc
              (mcd8544_MCD8544_init self horizontal vop bias temp).trace).map Fin.val)[4]?
            = some ((set_addressing self (to_int horizontal)).fn.val &&& int_not MCD8544_EXTENDED_INSTR)
          ∧ ((command_bytes dc
              (mcd8544_MCD8544_init self horizontal vop bias temp).trace).map Fin.val)[5]?
            = some ((set_addressing self (to_int horizontal)).fn.val &&& int_not MCD8544_POWER_DOWN)
          ∧ (0x20 ≤ ((set_addressing self (to_int horizontal)).fn.val ||| MCD8544_EXTENDED_INSTR)
            ∧ ((set_addressing self (to_int horizontal)).fn.val ||| MCD8544_EXTENDED_INSTR) ≤ 0x27
            ∧ ((set_addressing self (to_int horizontal)).fn.val ||| MCD8544_EXTENDED_INSTR).testBit 0
              = true)
          ∧ (0x20 ≤ ((set_addressing self (to_int horizontal)).fn.val &&& int_not MCD8544_EXTENDED_INSTR)
            ∧ ((set_addressing self (to_int horizontal)).fn.val &&& int_not MCD8544_EXTENDED_INSTR) ≤ 0x27
            ∧ ((set_addressing self (to_int horizontal)).fn.val
                &&& int_not MCD8544_EXTENDED_INSTR).testBit 0 = false)
          ∧ (0x20 ≤ ((set_addressing self (to_int horizontal)).fn.val &&& int_not MCD8544_POWER_DOWN)
            ∧ ((set_addressing self (to_int horizontal)).fn.val &&& int_not MCD8544_POWER_DOWN) ≤ 0x27
            ∧ ((set_addressing self (to_int horizontal)).fn.val
                &&& int_not MCD8544_POWER_DOWN).testBit 0 = false)
          ∧ (mcd8544_MCD8544_init self horizontal vop bias temp).self.fn.val.testBit 0
            = false) := by
  have hs := reachable_fn_shape hreach
  obtain ⟨b5, b0, _, _, _, _, _⟩ := fn_shape_function_set_bytes _ hs
  refine ⟨hs, b5, b0, ?_, ?_⟩
  · intro on_ dc
    have hc := power_command_bytes self on_ dc []
    simp only [List.append_nil] at hc
    have hsh := step_fn_shape (fun _ => 0) none self (Op.power on_) hs
    obtain ⟨_, p0, lo, hi, _, _, _⟩ := fn_shape_function_set_bytes _ hsh
    exact ⟨hc, lo, hi, p0⟩
  · intro horizontal vop bias temp dc hok
    unfold mcd8544_MCD8544_init at hok ⊢
    generalize to_int horizontal = horizontal at hok ⊢
    generalize to_int vop = vop at hok ⊢
    generalize to_int bias = bias at hok ⊢
    generalize to_int temp = temp at hok ⊢
    have hvalid : init_valid vop bias temp := (init_internal_raised_none_iff _ _ _ _ _).1 hok
    have hv := init_command_values self horizontal vop bias temp dc hvalid
    have ha := fn_shape_set_addressing self horizontal hs
    obtain ⟨_, _, _, _, e1, e5, e6⟩ := fn_shape_function_set_bytes _ ha
    have hsh := init_internal_fn_shape self horizontal vop bias temp hs
    refine ⟨?_, ?_, ?_, e1, e5, e6, (fn_shape_bits _ hsh).1⟩ <;> rw [hv] <;> rfl

/-- Witness for `function_register_shape`: the default object. -/
theorem function_register_shape_witness :
    (default_obj.fn.val = 0x20 ∨ default_obj.fn.val = 0x22 ∨ default_obj.fn.val = 0x24
        ∨ default_obj.fn.val = 0x26)
      ∧ default_obj.fn.val.testBit 5 = true ∧ default_obj.fn.val.testBit 0 = false :=
  ⟨(function_register_shape default_obj reachable_default_obj).1,
   (function_register_shape default_obj reachable_default_obj).2.1,
   (function_register_shape default_obj reachable_default_obj).2.2.1⟩

/-! ## Parameter fields -/

theorem stored_le (x : Int) (old : uint8_t) (hi : Int) (hhi : hi < 256)
    (hx : ¬ (x ≠ -1 ∧ (x < 0 ∨ x > hi))) (hold : (old.val : Int) ≤ hi) :
    (((if x ≠ -1 then to_uint8 (int_bits x) else old : uint8_t).val : Nat) : Int) ≤ hi := by
  by_cases hx1 : x = -1
  · simpa [hx1] using hold
  · have h0 : 0 ≤ x := by omega
    rw [if_pos hx1, to_uint8_int_bits_val h0 (by omega)]
    omega

theorem init_stores_params_ok (self : mcd8544_MCD8544_obj_t) (horizontal vop bias temp : Int)
    (hvalid : init_valid vop bias temp) (hp : params_ok self) :
    params_ok (init_stores self horizontal vop bias temp) := by
  obtain ⟨p1, p2, p3⟩ := hp
  have h1 := stored_le vop self.vop 127 (by decide) hvalid.1 (by omega)
  have h2 := stored_le bias self.bias 7 (by decide) hvalid.2.1 (by omega)
  have h3 := stored_le temp self.temp 3 (by decide) hvalid.2.2 (by omega)
  refine ⟨?_, ?_, ?_⟩
  · show (if vop ≠ -1 then to_uint8 (int_bits vop) else self.vop : uint8_t).val ≤ 127
    omega
  · show (if bias ≠ -1 then to_uint8 (int_bits bias) else self.bias : uint8_t).val ≤ 7
    omega
  · show (if temp ≠ -1 then to_uint8 (int_bits temp) else self.temp : uint8_t).val ≤ 3
    omega

/-- With all three values given in range, the stores leave parameters that
fit their fields, whatever the object held before. -/
theorem init_stores_params_ok_of_given (self : mcd8544_MCD8544_obj_t)
    (horizontal vop bias temp : Int) (hv : 0 ≤ vop ∧ vop ≤ 127) (hb : 0 ≤ bias ∧ bias ≤ 7)
    (ht : 0 ≤ temp ∧ temp ≤ 3) :
    params_ok (init_stores self horizontal vop bias temp) := by
  have e1 := to_uint8_int_bits_val hv.1 (show vop < 256 by omega)
  have e2 := to_uint8_int_bits_val hb.1 (show bias < 256 by omega)
  have e3 := to_uint8_int_bits_val ht.1 (show temp < 256 by omega)
  refine ⟨?_, ?_, ?_⟩
  · show (if vop ≠ -1 then to_uint8 (int_bits vop) else self.vop : uint8_t).val ≤ 127
    rw [if_pos (by omega), e1]; omega
  · show (if bias ≠ -1 then to_uint8 (int_bits bias) else self.bias : uint8_t).val ≤ 7
    rw [if_pos (by omega), e2]; omega
  · show (if temp ≠ -1 then to_uint8 (int_bits temp) else self.temp : uint8_t).val ≤ 3
    rw [if_pos (by omega), e3]; omega

theorem init_internal_params_ok (self : mcd8544_MCD8544_obj_t) (horizontal vop bias temp : Int)
    (hp : params_ok self) :
    params_ok (mcd8544_MCD8544_init_internal self horizontal vop bias temp).self := by
  have hs : (set_addressing self horizontal).vop = self.vop
      ∧ (set_addressing self horizontal).bias = self.bias
      ∧ (set_addressing self horizontal).temp = self.temp := by
    unfold set_addressing
    split_ifs <;> simp
  obtain ⟨s1, s2, s3⟩ := hs
  have ha : params_ok (set_addressing self horizontal) := by
    unfold params_ok
    rw [s1, s2, s3]
    exact hp
  by_cases hv : vop ≠ -1 ∧ (vop < 0 ∨ vop > 127)
  · rw [init_internal_vop_raise _ _ _ _ _ hv]; exact ha
  · have h1 := stored_le vop self.vop 127 (by decide) hv (by have := hp.1; omega)
    by_cases hb : bias ≠ -1 ∧ (bias < 0 ∨ bias > 7)
    · rw [init_internal_bias_raise _ _ _ _ _ hv hb]
      show params_ok (if vop ≠ -1 then _ else _ : mcd8544_MCD8544_obj_t)
      split_ifs with hx
      · refine ⟨?_, ?_, ?_⟩
        · show (to_uint8 (int_bits vop)).val ≤ 127
          rw [if_pos hx] at h1
          omega
        · show (set_addressing self horizontal).bias.val ≤ 7
          rw [s2]; exact hp.2.1
        · show (set_addressing self horizontal).temp.val ≤ 3
          rw [s3]; exact hp.2.2
      · exact ha
    · have h2 := stored_le bias self.bias 7 (by decide) hb (by have := hp.2.1; omega)
      by_cases ht : temp ≠ -1 ∧ (temp < 0 ∨ temp > 3)
      · rw [(init_internal_temp_raise _ _ _ _ _ hv hb ht).2.2]
        refine ⟨?_, ?_, hp.2.2⟩
        · show (if vop ≠ -1 then to_uint8 (int_bits vop) else self.vop : uint8_t).val ≤ 127
          omega
        · show (if bias ≠ -1 then to_uint8 (int_bits bias) else self.bias : uint8_t).val ≤ 7
          omega
      · rw [init_internal_of_valid _ _ _ _ _ hv hb ht]
        exact init_stores_params_ok self horizontal vop bias temp ⟨hv, hb, ht⟩ hp

theorem step_params_ok (font : Nat → uint8_t) (null_int : Option Int)
    (self : mcd8544_MCD8544_obj_t) (op : Op) (hp : params_ok self) :
    params_ok (step font null_int self op).self := by
  cases op with
  | init horizontal vop bias temp => exact init_internal_params_ok self _ _ _ _ hp
  | power on_ => cases on_ <;> exact hp
  | reset => exact hp
  | invert _ => exact hp
  | display _ => exact hp
  | test _ => exact hp
  | position _ _ => exact hp
  | fill color => exact (fill_self null_int self color).symm ▸ hp
  | text _ => exact hp
  | command _ => exact hp
  | data _ => exact hp

theorem run_params_ok (font : Nat → uint8_t) (null_int : Option Int) (ops : List Op) :
    ∀ self : mcd8544_MCD8544_obj_t, params_ok self →
      params_ok (run font null_int self ops).1 := by
  induction ops with
  | nil => intro self hp; exact hp
  | cons op ops ih => intro self hp; exact ih _ (step_params_ok font null_int self op hp)

set_option maxRecDepth 100000 in
theorem temp_field : ∀ t : Fin 4,
    (MCD8544_TEMP_COEFF ||| t.val) < 256
      ∧ (MCD8544_TEMP_COEFF ||| t.val) &&& int_not 0x03 = MCD8544_TEMP_COEFF
      ∧ (MCD8544_TEMP_COEFF ||| t.val) &&& 0x03 = t.val := by
  decide

set_option maxRecDepth 100000 in
theorem bias_field : ∀ b : Fin 8,
    (MCD8544_BIAS ||| b.val) < 256
      ∧ (MCD8544_BIAS ||| b.val) &&& int_not 0x07 = MCD8544_BIAS
      ∧ (MCD8544_BIAS ||| b.val) &&& 0x07 = b.val := by
  decide

set_option maxRecDepth 100000 in
theorem vop_field : ∀ v : Fin 128,
    (MCD8544_VOP ||| v.val) < 256
      ∧ (MCD8544_VOP ||| v.val) &&& int_not 0x7F = MCD8544_VOP
      ∧ (MCD8544_VOP ||| v.val) &&& 0x7F = v.val := by
  decide

/-- The three extended commands of `init_internal` on an object whose
parameters fit their fields: opcode bits intact, parameter in the low bits. -/
theorem extended_fields (s : mcd8544_MCD8544_obj_t) (hp : params_ok s) :
    (((labelled_init_sequence s).map Prod.snd).map Fin.val)[1]?
        = some (MCD8544_TEMP_COEFF ||| s.temp.val)
      ∧ (((labelled_init_sequence s).map Prod.snd).map Fin.val)[2]?
        = some (MCD8544_BIAS ||| s.bias.val)
      ∧ (((labelled_init_sequence s).map Prod.snd).map Fin.val)[3]?
        = some (MCD8544_VOP ||| s.vop.val)
      ∧ (MCD8544_TEMP_COEFF ||| s.temp.val) &&& int_not 0x03 = MCD8544_TEMP_COEFF
      ∧ (MCD8544_TEMP_COEFF ||| s.temp.val) &&& 0x03 = s.temp.val
      ∧ (MCD8544_BIAS ||| s.bias.val) &&& int_not 0x07 = MCD8544_BIAS
      ∧ (MCD8544_BIAS ||| s.bias.val) &&& 0x07 = s.bias.val
      ∧ (MCD8544_VOP ||| s.vop.val) &&& int_not 0x7F = MCD8544_VOP
      ∧ (MCD8544_VOP ||| s.vop.val) &&& 0x7F = s.vop.val := by
  obtain ⟨p1, p2, p3⟩ := hp
  obtain ⟨t1, t2, t3⟩ := temp_field ⟨s.temp.val, by omega⟩
  obtain ⟨b1, b2, b3⟩ := bias_field ⟨s.bias.val, by omega⟩
  obtain ⟨v1, v2, v3⟩ := vop_field ⟨s.vop.val, by omega⟩
  refine ⟨?_, ?_, ?_, t2, t3, b2, b3, v2, v3⟩
  · show some (to_uint8 (MCD8544_TEMP_COEFF ||| s.temp.val)).val = _
    rw [to_uint8_val_of_lt t1]
  · show some (to_uint8 (MCD8544_BIAS ||| s.bias.val)).val = _
    rw [to_uint8_val_of_lt b1]
  · show some (to_uint8 (MCD8544_VOP ||| s.vop.val)).val = _
    rw [to_uint8_val_of_lt v1]

/-- Claim C20: for a device constructed with contrast in [0,127], bias in
[0,7] and temperature coefficient in [0,3], the constructor completes, and
after any sequence of method calls, completed or raised, the stored contrast
is at most 127, the bias at most 7 and the temperature coefficient at most 3.
In the commands of the constructor and of every later `init` that completes,
the second, third and fourth bytes are `TEMP_COEFF | temp`, `BIAS | bias` and
`VOP | contrast` of the values stored by that call, with
`cmd & ~0x03 = TEMP_COEFF`, `cmd & ~0x07 = BIAS`, `cmd & ~0x7F = VOP` and the
parameter in the low bits, although the values are OR-ed in unmasked. -/
theorem parameter_fields (font : Nat → uint8_t) (null_int : Option Int)
    (alloc : mcd8544_MCD8544_obj_t) (cs reset : Bool) (horizontal vop bias temp : Int)
    (ops : List Op) (hv : 0 ≤ vop ∧ vop ≤ 127) (hb : 0 ≤ bias ∧ bias ≤ 7)
    (ht : 0 ≤ temp ∧ temp ≤ 3) :
    (mcd8544_MCD8544_make_new alloc cs reset horizontal vop bias temp).raised = none
      ∧ (∀ dc,
          ((command_bytes dc (mcd8544_MCD8544_make_new alloc cs reset horizontal vop bias
              temp).trace).map Fin.val)[1]? = some (MCD8544_TEMP_COEFF ||| temp.toNat)
          ∧ ((command_bytes dc (mcd8544_MCD8544_make_new alloc cs reset horizontal vop bias
              temp).trace).map Fin.val)[2]? = some (MCD8544_BIAS ||| bias.toNat)
          ∧ ((command_bytes dc (mcd8544_MCD8544_make_new alloc cs reset horizontal vop bias
              temp).trace).map Fin.val)[3]? = some (MCD8544_VOP ||| vop.toNat)
          ∧ (MCD8544_TEMP_COEFF ||| temp.toNat) &&& int_not 0x03 = MCD8544_TEMP_COEFF
          ∧ (MCD8544_BIAS ||| bias.toNat) &&& int_not 0x07 = MCD8544_BIAS
          ∧ (MCD8544_VOP ||| vop.toNat) &&& int_not 0x7F = MCD8544_VOP)
      ∧ (run font null_int
          (mcd8544_MCD8544_make_new alloc cs reset horizontal vop bias temp).self ops).1.vop.val
        ≤ 127
      ∧ (run font null_int
          (mcd8544_MCD8544_make_new alloc cs reset horizontal vop bias temp).self ops).1.bias.val
        ≤ 7
      ∧ (run font null_int
          (mcd8544_MCD8544_make_new alloc cs reset horizontal vop bias temp).self ops).1.temp.val
        ≤ 3
      ∧ (∀ (h' v' b' t' : Int) (dc : Bool),
          (mcd8544_MCD8544_init (run font null_int
            (mcd8544_MCD8544_make_new alloc cs reset horizontal vop bias temp).self ops).1
            h' v' b' t').raised = none →
          ((command_bytes dc (mcd8544_MCD8544_init (run font null_int
              (mcd8544_MCD8544_make_new alloc cs reset horizontal vop bias temp).self ops).1
              h' v' b' t').trace).map Fin.val)[1]?
            = some (MCD8544_TEMP_COEFF ||| (mcd8544_MCD8544_init (run font null_int
                (mcd8544_MCD8544_make_new alloc cs reset horizontal vop bias temp).self ops).1
                h' v' b' t').self.temp.val)
          ∧ ((command_bytes dc (mcd8544_MCD8544_init (run font null_int
              (mcd8544_MCD8544_make_new alloc cs reset horizontal vop bias temp).self ops).1
              h' v' b' t').trace).map Fin.val)[2]?
            = some (MCD8544_BIAS ||| (mcd8544_MCD8544_init (run font null_int
                (mcd8544_MCD8544_make_new alloc cs reset horizontal vop bias temp).self ops).1
                h' v' b' t').self.bias.val)
          ∧ ((command_bytes dc (mcd8544_MCD8544_init (run font null_int
              (mcd8544_MCD8544_make_new alloc cs reset horizontal vop bias temp).self ops).1
              h' v' b' t').trace).map Fin.val)[3]?
            = some (MCD8544_VOP ||| (mcd8544_MCD8544_init (run font null_int
                (mcd8544_MCD8544_make_new alloc cs reset horizontal vop bias temp).self ops).1
                h' v' b' t').self.vop.val)
          ∧ (MCD8544_TEMP_COEFF ||| (mcd8544_MCD8544_init (run font null_int
                (mcd8544_MCD8544_make_new alloc cs reset horizontal vop bias temp).self ops).1
                h' v' b' t').self.temp.val) &&& int_not 0x03 = MCD8544_TEMP_COEFF
          ∧ (MCD8544_TEMP_COEFF ||| (mcd8544_MCD8544_init (run font null_int
                (mcd8544_MCD8544_make_new alloc cs reset horizontal vop bias temp).self ops).1
                h' v' b' t').self.temp.val) &&& 0x03
            = (mcd8544_MCD8544_init (run font null_int
                (mcd8544_MCD8544_make_new alloc cs reset horizontal vop bias temp).self ops).1
                h' v' b' t').self.temp.val
          ∧ (MCD8544_BIAS ||| (mcd8544_MCD8544_init (run font null_int
                (mcd8544_MCD8544_make_new alloc cs reset horizontal vop bias temp).self ops).1
                h' v' b' t').self.bias.val) &&& int_not 0x07 = MCD8544_BIAS
          ∧ (MCD8544_BIAS ||| (mcd8544_MCD8544_init (run font null_int
                (mcd8544_MCD8544_make_new alloc cs reset horizontal vop bias temp).self ops).1
                h' v' b' t').self.bias.val) &&& 0x07
            = (mcd8544_MCD8544_init (run font null_int
                (mcd8544_MCD8544_make_new alloc cs reset horizontal vop bias temp).self ops).1
                h' v' b' t').self.bias.val
          ∧ (MCD8544_VOP ||| (mcd8544_MCD8544_init (run font null_int
                (mcd8544_MCD8544_make_new alloc cs reset horizontal vop bias temp).self ops).1
                h' v' b' t').self.vop.val) &&& int_not 0x7F = MCD8544_VOP
          ∧ (MCD8544_VOP ||| (mcd8544_MCD8544_init (run font null_int
                (mcd8544_MCD8544_make_new alloc cs reset horizontal vop bias temp).self ops).1
                h' v' b' t').self.vop.val) &&& 0x7F
            = (mcd8544_MCD8544_init (run font null_int
                (mcd8544_MCD8544_make_new alloc cs reset horizontal vop bias temp).self ops).1
                h' v' b' t').self.vop.val) := by
  have n1 : to_int vop = vop := to_int_of_small (by omega) (by omega)
  have n2 : to_int bias = bias := to_int_of_small (by omega) (by omega)
  have n3 : to_int temp = temp := to_int_of_small (by omega) (by omega)
  have hvalid : init_valid (to_int vop) (to_int bias) (to_int temp) := by
    rw [n1, n2, n3]
    exact ⟨by omega, by omega, by omega⟩
  have hnew := (make_new_raised alloc cs reset horizontal vop bias temp).2 hvalid
  have hself := make_new_self alloc cs reset horizontal vop bias temp hvalid
  have hps : params_ok (init_stores (make_new_prepared alloc cs reset) (to_int horizontal)
      (to_int vop) (to_int bias) (to_int temp)) := by
    rw [n1, n2, n3]
    exact init_stores_params_ok_of_given (make_new_prepared alloc cs reset) (to_int horizontal)
      vop bias temp hv hb ht
  have hp0 : params_ok (mcd8544_MCD8544_make_new alloc cs reset horizontal vop bias temp).self := by
    rw [hself]
    exact hps
  have hrun := run_params_ok font null_int ops _ hp0
  refine ⟨hnew, ?_, hrun.1, hrun.2.1, hrun.2.2, ?_⟩
  · intro dc
    have hc := make_new_command_bytes alloc cs reset horizontal vop bias temp hvalid dc []
    rw [List.append_nil, show command_bytes false [] = [] from rfl, List.append_nil] at hc
    obtain ⟨f1, f2, f3, f4, _, f6, _, f8, _⟩ := extended_fields _ hps
    have e1 : (init_stores (make_new_prepared alloc cs reset) (to_int horizontal)
        (to_int vop) (to_int bias) (to_int temp)).vop.val = vop.toNat := by
      rw [n1, n2, n3]
      show (if vop ≠ -1 then to_uint8 (int_bits vop) else _ : uint8_t).val = _
      rw [if_pos (by omega), to_uint8_int_bits_val hv.1 (by omega)]
    have e2 : (init_stores (make_new_prepared alloc cs reset) (to_int horizontal)
        (to_int vop) (to_int bias) (to_int temp)).bias.val = bias.toNat := by
      rw [n1, n2, n3]
      show (if bias ≠ -1 then to_uint8 (int_bits bias) else _ : uint8_t).val = _
      rw [if_pos (by omega), to_uint8_int_bits_val hb.1 (by omega)]
    have e3 : (init_stores (make_new_prepared alloc cs reset) (to_int horizontal)
        (to_int vop) (to_int bias) (to_int temp)).temp.val = temp.toNat := by
      rw [n1, n2, n3]
      show (if temp ≠ -1 then to_uint8 (int_bits temp) else _ : uint8_t).val = _
      rw [if_pos (by omega), to_uint8_int_bits_val ht.1 (by omega)]
    rw [e3] at f1 f4
    rw [e2] at f2 f6
    rw [e1] at f3 f8
    rw [hc]
    exact ⟨f1, f2, f3, f4, f6, f8⟩
  · intro h' v' b' t' dc hok
    have hvalid' : init_valid (to_int v') (to_int b') (to_int t') :=
      (init_internal_raised_none_iff _ _ _ _ _).1 hok
    have hc := command_bytes_step font null_int (run font null_int
        (mcd8544_MCD8544_make_new alloc cs reset horizontal vop bias temp).self ops).1
      (Op.init h' v' b' t') dc
    simp only [step, labelled_commands, if_pos hvalid'] at hc
    have hps' := init_stores_params_ok _ (to_int h') (to_int v') (to_int b') (to_int t')
      hvalid' hrun
    have hf := extended_fields _ hps'
    rw [hc]
    unfold mcd8544_MCD8544_init
    rw [init_internal_of_init_valid _ _ _ _ _ hvalid']
    exact hf

/-- Witness for `parameter_fields`: constructor with contrast 127, bias 7,
temperature 3, both optional pins given. -/
theorem parameter_fields_witness :
    (mcd8544_MCD8544_make_new zero_obj true true 0 127 7 3).raised = none
      ∧ (run (fun _ => 0) none (mcd8544_MCD8544_make_new zero_obj true true 0 127 7 3).self
          [Op.init 1 200 0 0, Op.init (-1) 5 9 0, Op.power false]).1.vop.val ≤ 127
      ∧ (run (fun _ => 0) none (mcd8544_MCD8544_make_new zero_obj true true 0 127 7 3).self
          [Op.init 1 200 0 0, Op.init (-1) 5 9 0, Op.power false]).1.bias.val ≤ 7
      ∧ (run (fun _ => 0) none (mcd8544_MCD8544_make_new zero_obj true true 0 127 7 3).self
          [Op.init 1 200 0 0, Op.init (-1) 5 9 0, Op.power false]).1.temp.val ≤ 3 :=
  ⟨(parameter_fields (fun _ => 0) none zero_obj true true 0 127 7 3
      [Op.init 1 200 0 0, Op.init (-1) 5 9 0, Op.power false]
      (by decide) (by decide) (by decide)).1,
   (parameter_fields (fun _ => 0) none zero_obj true true 0 127 7 3
      [Op.init 1 200 0 0, Op.init (-1) 5 9 0, Op.power false]
      (by decide) (by decide) (by decide)).2.2.1,
   (parameter_fields (fun _ => 0) none zero_obj true true 0 127 7 3
      [Op.init 1 200 0 0, Op.init (-1) 5 9 0, Op.power false]
      (by decide) (by decide) (by decide)).2.2.2.1,
   (parameter_fields (fun _ => 0) none zero_obj true true 0 127 7 3
      [Op.init 1 200 0 0, Op.init (-1) 5 9 0, Op.power false]
      (by decide) (by decide) (by decide)).2.2.2.2.1⟩

end MCD8544
